import Mathlib

/-!
# Verification of the `tone_asr` streaming ASR session handler

Shallow embedding of `src/tone_asr/handler.py` (class `ToneEventHandler`).

Modelling choices:
* Audio bytes are `List Nat` (one entry per byte, values 0..255).
* Machine floats (`numpy.float32`) are modelled as `ℚ`; the RMS computation
  (`np.sqrt(np.mean(samples**2))`, a nonnegative float) and the external
  `resampy.resample` call are opaque parameters of the development,
  carried in a `Params` structure together with the opaque decoding engine
  (`pipeline.forward` / `pipeline.finalize`).  Engine calls may raise; a
  Python exception is modelled as `Except String` (the handler stringifies
  the exception into a wire `Error` event).  Exceptions do not roll back
  mutations made before the raise, so each embedded operation returns the
  session as mutated up to the raise point together with an
  `Option String` for an escaped exception.
* The `asyncio.create_task(self._handle_audio_stop())` scheduled when the
  VAD triggers runs, in the single-threaded cooperative schedule of the
  server, right after the chunk handler that scheduled it returns and
  before the next client event is read; `handleAudioChunk` models this by
  running `handleAudioStop` after its draining loop whenever the VAD
  triggered during that call.
* `wyoming` wire events are the inductive `Ev`; writing an event cannot
  fail in the model (the transport is abstracted away).
-/

namespace ToneAsr

/-- `INCOMING_SAMPLE_RATE` from the source. -/
def INCOMING_SAMPLE_RATE : Nat := 16000

/-- `MODEL_SAMPLE_RATE` from the source. -/
def MODEL_SAMPLE_RATE : Nat := 8000

/-- `REQUIRED_SAMPLES` from the source. -/
def REQUIRED_SAMPLES : Nat := 4800

/-- `REQUIRED_BYTES = REQUIRED_SAMPLES * 2` from the source. -/
def REQUIRED_BYTES : Nat := REQUIRED_SAMPLES * 2

/-- The source constant `VAD_SILENCE_THRESHOLD_RATIO = 0.35`, as a rational. -/
def VAD_SILENCE_THRESHOLD : ℚ := 35 / 100

/-- `VAD_PATIENCE_CHUNKS` from the source. -/
def VAD_PATIENCE_CHUNKS : Nat := 6

/-- Reinterpret an unsigned 16-bit value as a signed one
(`np.frombuffer(..., dtype=np.int16)` on two little-endian bytes). -/
def toInt16 (x : Nat) : Int :=
  if x % 65536 < 32768 then ((x % 65536 : Nat) : Int) else ((x % 65536 : Nat) : Int) - 65536

/-- Decode a little-endian byte string into int16 samples
(`np.frombuffer(chunk_bytes, dtype=np.int16)`).  Frames handed to this
function always have even length (`REQUIRED_BYTES` or a zero-padded final
frame); a stray odd byte would make `np.frombuffer` raise, and is dropped
here. -/
def bytesToSamples : List Nat → List Int
  | b0 :: b1 :: rest => toInt16 (b0 % 256 + 256 * (b1 % 256)) :: bytesToSamples rest
  | _ => []

/-- `.astype(np.float32)`: widen the int16 samples to (exact) rationals. -/
def samplesFloat (chunk_bytes : List Nat) : List ℚ :=
  (bytesToSamples chunk_bytes).map (fun i => (i : ℚ))

/-- `np.clip(x, -32768, 32767)` on one sample. -/
def clipSample (x : ℚ) : ℚ := max (-32768) (min 32767 x)

/-- `.astype(np.int32)`: float-to-int conversion truncates toward zero. -/
def truncToInt (x : ℚ) : Int := if 0 ≤ x then ⌊x⌋ else ⌈x⌉

/-- Python's default `str.strip()` / `str.split()` whitespace characters. -/
def isSpaceChar (c : Char) : Bool :=
  c == ' ' || c == '\t' || c == '\n' || c == '\r' || c == '\x0b' || c == '\x0c'

/-- Python `text.strip()`: drop leading and trailing whitespace. -/
def pyStrip (s : String) : String :=
  ⟨((s.data.dropWhile isSpaceChar).reverse.dropWhile isSpaceChar).reverse⟩

/-- Python `text.lower()`. -/
def pyLower (s : String) : String := ⟨s.data.map Char.toLower⟩

/-- Helper for `pyWordCount`: count maximal nonblank runs; the flag records
whether we are currently inside a word. -/
def countWordsAux : List Char → Bool → Nat
  | [], _ => 0
  | c :: cs, inWord =>
    if isSpaceChar c then countWordsAux cs false
    else (if inWord then 0 else 1) + countWordsAux cs true

/-- Python `len(text.split())`: the number of whitespace-separated words. -/
def pyWordCount (s : String) : Nat := countWordsAux s.data false

/-- Python `pat in text`: substring containment. -/
def substrIn (pat text : String) : Bool :=
  (text.data.tails).any (fun t => pat.data.isPrefixOf t)

/-- A phrase returned by the decoding engine (`p.text`). -/
structure Phrase where
  text : String
deriving DecidableEq

/-- `" ".join(p.text for p in phrases if p.text)`. -/
def joinTexts (phrases : List Phrase) : String :=
  String.intercalate " " ((phrases.map Phrase.text).filter (fun t => t != ""))

/-- `(self.accumulated_text + " " + chunk_text).strip()`. -/
def appendText (acc t : String) : String := pyStrip (acc ++ " " ++ t)

/-- Outbound wire events written by the handler. -/
inductive Ev where
  | transcriptStart (language : String)
  | transcriptChunk (text : String)
  | transcript (text : String)
  | transcriptStop
  | error (text : String)
deriving DecidableEq

/-- The immutable collaborators and configuration of one handler:
the opaque streaming engine (`pipeline.forward` / `pipeline.finalize`,
state type `σ`, `None` modelled as `Option.none`), the RMS computation,
the external resampler, `cli_args.amplification_factor` and
`cli_args.language`. -/
structure Params (σ : Type) where
  forward : List Int → Option σ → Except String (List Phrase × Option σ)
  finalize : Option σ → Except String (List Phrase × Option σ)
  rms : List ℚ → ℚ
  rms_nonneg : ∀ x, 0 ≤ rms x
  resample : List ℚ → List ℚ
  amplification_factor : ℚ
  language : String

/-- The mutable per-connection session fields of `ToneEventHandler`,
together with the two immutable configuration fields the Python object
also carries (`sorted_commands`, `command_max_words`). -/
structure Session (σ : Type) where
  sorted_commands : List String
  command_max_words : Int
  state : Option σ
  accumulated_text : String
  command_recognized : Bool
  check_performed : Bool
  audio_buffer : List Nat
  vad_peak_energy : ℚ
  vad_quiet_chunks : Nat
  vad_triggered : Bool
deriving DecidableEq

/-- Stable insertion of a string into a list sorted by descending length
(helper for `sortCommands`). -/
def insertByLen (x : String) : List String → List String
  | [] => [x]
  | y :: ys => if x.length < y.length ∨ x.length = y.length then y :: insertByLen x ys
               else x :: y :: ys

/-- `sorted(list(commands), key=len, reverse=True)`: stable sort by
descending length. -/
def sortCommands (l : List String) : List String := l.foldr insertByLen []

/-- A pristine session whose `sorted_commands` list is already in its final
order: every mutable field holds the value `__init__` (and
`_handle_audio_start`) gives it. -/
def mkSession (σ : Type) (sorted_commands : List String) (command_max_words : Int) :
    Session σ where
  sorted_commands := sorted_commands
  command_max_words := command_max_words
  state := none
  accumulated_text := ""
  command_recognized := false
  check_performed := false
  audio_buffer := []
  vad_peak_energy := 0
  vad_quiet_chunks := 0
  vad_triggered := false

/-- `__init__`: build the session from the raw command vocabulary
(`self.sorted_commands = sorted(list(self.commands), key=len, reverse=True)`). -/
def initSession (σ : Type) (commands : List String) (command_max_words : Int) : Session σ :=
  mkSession σ (sortCommands commands) command_max_words

/-- `_check_for_command`: return the first entry of `sorted_commands`
occurring as a substring of `text`, else `None`. -/
def checkForCommand (sorted_commands : List String) (text : String) : Option String :=
  match sorted_commands with
  | [] => none
  | c :: rest => if substrIn c text then some c else checkForCommand rest text

/-- `_finalize_recognition`: guarded by `command_recognized`; strips the
text; silently returns on an empty result; otherwise emits the terminal
`Transcript` and `TranscriptStop` events and sets `command_recognized`. -/
def finalizeRecognition (s : Session σ) (text : String) : Session σ × List Ev :=
  if s.command_recognized then (s, [])
  else
    let final_text := pyStrip text
    if final_text = "" then (s, [])
    else ({ s with command_recognized := true },
          [Ev.transcript final_text, Ev.transcriptStop])

/-- The audio transform shared verbatim by `_process_chunk` (lines 95-102)
and `_process_chunk_final` (lines 211-216): amplify (skipping the multiply
when the factor is 1.0), resample 16000 → 8000, clip to the int16 range,
convert to int32. -/
def transformAudio (P : Params σ) (chunk_bytes : List Nat) : List Int :=
  let samples_float := samplesFloat chunk_bytes
  let amped := if P.amplification_factor ≠ 1 then
      samples_float.map (fun x => x * P.amplification_factor)
    else samples_float
  (P.resample amped).map (fun q => truncToInt (clipSample q))

/-- `_process_chunk`: VAD bookkeeping, possible VAD trigger, decode,
incremental emission, opportunistic command check.  The third component
is an exception escaping from the engine call. -/
def processChunk (P : Params σ) (s : Session σ) (chunk_bytes : List Nat) :
    Session σ × List Ev × Option String :=
  if s.command_recognized || s.vad_triggered then (s, [], none)
  else
    let rms_energy := P.rms (samplesFloat chunk_bytes)
    let peak := max s.vad_peak_energy rms_energy
    let is_quiet : Bool := decide (0 < peak) && decide (rms_energy < peak * VAD_SILENCE_THRESHOLD)
    let quiet := if is_quiet then s.vad_quiet_chunks + 1 else 0
    let s1 : Session σ := { s with vad_peak_energy := peak, vad_quiet_chunks := quiet }
    if VAD_PATIENCE_CHUNKS ≤ quiet then
      ({ s1 with vad_triggered := true }, [], none)
    else
      match P.forward (transformAudio P chunk_bytes) s1.state with
      | Except.error e => (s1, [], some e)
      | Except.ok (new_phrases, st) =>
        let s2 : Session σ := { s1 with state := st }
        let se : Session σ × List Ev :=
          if new_phrases.isEmpty then (s2, [])
          else
            let chunk_text := joinTexts new_phrases
            if chunk_text = "" then (s2, [])
            else ({ s2 with accumulated_text := appendText s2.accumulated_text chunk_text },
                  [Ev.transcriptChunk chunk_text])
        if !se.1.sorted_commands.isEmpty && !se.1.check_performed
            && decide (0 < se.1.command_max_words) then
          if se.1.command_max_words ≤ (pyWordCount se.1.accumulated_text : Int) then
            let s4 : Session σ := { se.1 with check_performed := true }
            match checkForCommand s4.sorted_commands (pyLower s4.accumulated_text) with
            | some cmd =>
              let r := finalizeRecognition s4 cmd
              (r.1, se.2 ++ r.2, none)
            | none => (s4, se.2, none)
          else (se.1, se.2, none)
        else (se.1, se.2, none)

/-- `_process_chunk_final`: decode a (padded) frame with no VAD logic and
no command check. -/
def processChunkFinal (P : Params σ) (s : Session σ) (chunk_bytes : List Nat) :
    Session σ × List Ev × Option String :=
  match P.forward (transformAudio P chunk_bytes) s.state with
  | Except.error e => (s, [], some e)
  | Except.ok (new_phrases, st) =>
    let s1 : Session σ := { s with state := st }
    if new_phrases.isEmpty then (s1, [], none)
    else
      let chunk_text := joinTexts new_phrases
      if chunk_text = "" then (s1, [], none)
      else ({ s1 with accumulated_text := appendText s1.accumulated_text chunk_text },
            [Ev.transcriptChunk chunk_text], none)

/-- `self.audio_buffer + (b'\x00' * padding_needed)`: zero-pad a buffered
partial frame to the full frame size (a negative `padding_needed` yields
the empty byte string in Python, as Nat subtraction does here). -/
def padFrame (buf : List Nat) : List Nat :=
  buf ++ List.replicate (REQUIRED_BYTES - buf.length) 0

/-- `_handle_audio_stop`: the single finalize routine.  Guarded by
`command_recognized`; marks `vad_triggered`; flushes the padded partial
frame; asks the engine to finalize; emits trailing phrases; runs the
command check if none has run; funnels into `finalizeRecognition`.
Engine exceptions are caught and reported as an `Error` event. -/
def handleAudioStop (P : Params σ) (s : Session σ) : Session σ × List Ev :=
  if s.command_recognized then (s, [])
  else
    let s1 : Session σ := { s with vad_triggered := true }
    let flush : Session σ × List Ev × Option String :=
      if s1.audio_buffer.isEmpty then (s1, [], none)
      else
        let r := processChunkFinal P s1 (padFrame s1.audio_buffer)
        match r.2.2 with
        | some msg => (r.1, r.2.1, some msg)
        | none => ({ r.1 with audio_buffer := [] }, r.2.1, none)
    match flush.2.2 with
    | some msg => (flush.1, flush.2.1 ++ [Ev.error msg])
    | none =>
      let s2 := flush.1
      let evs2 := flush.2.1
      if s2.command_recognized then (s2, evs2)
      else
        match P.finalize s2.state with
        | Except.error msg => (s2, evs2 ++ [Ev.error msg])
        | Except.ok (final_phrases, _) =>
          let se : Session σ × List Ev :=
            if final_phrases.isEmpty then (s2, [])
            else
              let final_text_part := joinTexts final_phrases
              if final_text_part = "" then (s2, [])
              else ({ s2 with accumulated_text := appendText s2.accumulated_text final_text_part },
                    [Ev.transcriptChunk final_text_part])
          if !se.1.check_performed then
            match checkForCommand se.1.sorted_commands (pyLower se.1.accumulated_text) with
            | some cmd =>
              let r := finalizeRecognition se.1 cmd
              (r.1, evs2 ++ se.2 ++ r.2)
            | none =>
              let r := finalizeRecognition se.1 se.1.accumulated_text
              (r.1, evs2 ++ se.2 ++ r.2)
          else
            let r := finalizeRecognition se.1 se.1.accumulated_text
            (r.1, evs2 ++ se.2 ++ r.2)

/-- Result of the draining `while` loop of `_handle_audio_chunk`:
final session, remaining buffer, the frames handed to `_process_chunk`
(in order), the events written, and an escaped exception if any. -/
structure ChunkRes (σ : Type) where
  st : Session σ
  rem : List Nat
  frames : List (List Nat)
  evs : List Ev
  err : Option String

/-- The `while len(self.audio_buffer) >= REQUIRED_BYTES` loop of
`_handle_audio_chunk`: re-check the stop flags, pop one frame, process it;
an exception aborts the loop (leaving the rest buffered). -/
def chunkLoop (P : Params σ) (s : Session σ) (buf : List Nat) : ChunkRes σ :=
  if h : REQUIRED_BYTES ≤ buf.length then
    if s.command_recognized || s.vad_triggered then ⟨s, buf, [], [], none⟩
    else
      let frame := buf.take REQUIRED_BYTES
      let p := processChunk P s frame
      match p.2.2 with
      | some e => ⟨p.1, buf.drop REQUIRED_BYTES, [frame], p.2.1, some e⟩
      | none =>
        let r := chunkLoop P p.1 (buf.drop REQUIRED_BYTES)
        ⟨r.st, r.rem, frame :: r.frames, p.2.1 ++ r.evs, r.err⟩
  else ⟨s, buf, [], [], none⟩
termination_by buf.length
decreasing_by
  simp only [List.length_drop]
  have : 0 < REQUIRED_BYTES := by norm_num [REQUIRED_BYTES, REQUIRED_SAMPLES]
  omega

/-- `_handle_audio_chunk`: drop everything when a stop has been decided,
else extend the buffer and drain it frame by frame; an escaped exception
is reported as an `Error` event.  When the VAD triggered during this call
(`s.vad_triggered` is false in the live branch), the stop task scheduled
by `asyncio.create_task` runs right after this handler, which the model
appends here.  Also returns the frames handed to `_process_chunk`. -/
def handleAudioChunk (P : Params σ) (s : Session σ) (b : List Nat) :
    Session σ × List Ev × List (List Nat) :=
  if s.command_recognized || s.vad_triggered then (s, [], [])
  else
    let r := chunkLoop P s (s.audio_buffer ++ b)
    let s1 : Session σ := { r.st with audio_buffer := r.rem }
    let evs :=
      match r.err with
      | some msg => r.evs ++ [Ev.error msg]
      | none => r.evs
    if s1.vad_triggered then
      let q := handleAudioStop P s1
      (q.1, evs ++ q.2, r.frames)
    else
      (s1, evs, r.frames)

/-- `_handle_audio_start`: reset every mutable field and emit
`TranscriptStart` with the configured language. -/
def handleAudioStart (P : Params σ) (s : Session σ) : Session σ × List Ev :=
  ({ s with state := none, accumulated_text := "", command_recognized := false,
            check_performed := false, audio_buffer := [],
            vad_peak_energy := 0, vad_quiet_chunks := 0, vad_triggered := false },
   [Ev.transcriptStart P.language])

/-- The in-stream client events `handle_event` dispatches on
(`AudioChunk` and `AudioStop`). -/
inductive Op where
  | audioChunk (b : List Nat)
  | audioStop
deriving DecidableEq

/-- One `handle_event` dispatch: an `AudioChunk` goes to
`_handle_audio_chunk`; an `AudioStop` goes to `_handle_audio_stop` only
when the VAD has not already triggered (the VAD task handles it then). -/
def step (P : Params σ) (s : Session σ) : Op → Session σ × List Ev
  | Op.audioChunk b =>
    let r := handleAudioChunk P s b
    (r.1, r.2.1)
  | Op.audioStop => if !s.vad_triggered then handleAudioStop P s else (s, [])

/-- Run a list of in-stream events, concatenating the written events. -/
def runStream (P : Params σ) (s : Session σ) : List Op → Session σ × List Ev
  | [] => (s, [])
  | op :: ops =>
    let r := step P s op
    let r2 := runStream P r.1 ops
    (r2.1, r.2 ++ r2.2)

/-- Feed a fragmentation of a byte stream chunk by chunk, collecting the
frames handed to `_process_chunk`. -/
def feedMany (P : Params σ) (s : Session σ) : List (List Nat) → Session σ × List Ev × List (List Nat)
  | [] => (s, [], [])
  | c :: cs =>
    let r := handleAudioChunk P s c
    let r2 := feedMany P r.1 cs
    (r2.1, r.2.1 ++ r2.2.1, r.2.2 ++ r2.2.2)

/-! ## Generic helpers -/

/-- Sum of a per-event counter over an event list. -/
def countEv (f : Ev → Nat) (evs : List Ev) : Nat := (evs.map f).sum

/-- Counter for terminal `Transcript` events. -/
def transcriptCount : Ev → Nat
  | Ev.transcript _ => 1
  | _ => 0

/-- Counter for `TranscriptStop` events. -/
def transcriptStopCount : Ev → Nat
  | Ev.transcriptStop => 1
  | _ => 0

/-- The terminal flag as a number. -/
def flagNat (s : Session σ) : Nat := if s.command_recognized then 1 else 0

/-- A counter that ignores everything but the terminal `Transcript` +
`TranscriptStop` pair, of which it counts exactly one. -/
def CounterOK (f : Ev → Nat) : Prop :=
  (∀ t, f (Ev.transcriptStart t) = 0) ∧ (∀ t, f (Ev.transcriptChunk t) = 0) ∧
  (∀ t, f (Ev.error t) = 0) ∧ (∀ t, f (Ev.transcript t) + f Ev.transcriptStop = 1)

lemma counterOK_transcript : CounterOK transcriptCount := by
  refine ⟨fun t => rfl, fun t => rfl, fun t => rfl, fun t => rfl⟩

lemma counterOK_transcriptStop : CounterOK transcriptStopCount := by
  refine ⟨fun t => rfl, fun t => rfl, fun t => rfl, fun t => rfl⟩

lemma countEv_append (f : Ev → Nat) (a b : List Ev) :
    countEv f (a ++ b) = countEv f a + countEv f b := by
  simp [countEv]

/-! ## Helper lemmas about `finalizeRecognition` -/

lemma finalizeRecognition_done (s : Session σ) (t : String) (hcr : s.command_recognized = true) :
    finalizeRecognition s t = (s, []) := by
  simp [finalizeRecognition, hcr]

lemma finalizeRecognition_empty (s : Session σ) (t : String) (hcr : s.command_recognized = false)
    (ht : pyStrip t = "") : finalizeRecognition s t = (s, []) := by
  simp [finalizeRecognition, hcr, ht]

lemma finalizeRecognition_emit (s : Session σ) (t : String) (hcr : s.command_recognized = false)
    (ht : pyStrip t ≠ "") :
    finalizeRecognition s t = ({ s with command_recognized := true },
      [Ev.transcript (pyStrip t), Ev.transcriptStop]) := by
  simp [finalizeRecognition, hcr, ht]

lemma finalizeRecognition_vqc (s : Session σ) (t : String) :
    (finalizeRecognition s t).1.vad_quiet_chunks = s.vad_quiet_chunks := by
  simp only [finalizeRecognition]
  repeat' split
  all_goals rfl

lemma finalizeRecognition_vt (s : Session σ) (t : String) :
    (finalizeRecognition s t).1.vad_triggered = s.vad_triggered := by
  simp only [finalizeRecognition]
  repeat' split
  all_goals rfl

lemma finalizeRecognition_vpe (s : Session σ) (t : String) :
    (finalizeRecognition s t).1.vad_peak_energy = s.vad_peak_energy := by
  simp only [finalizeRecognition]
  repeat' split
  all_goals rfl

lemma finalizeRecognition_cp (s : Session σ) (t : String) :
    (finalizeRecognition s t).1.check_performed = s.check_performed := by
  simp only [finalizeRecognition]
  repeat' split
  all_goals rfl

lemma finalizeRecognition_acc (s : Session σ) (t : String) :
    (finalizeRecognition s t).1.accumulated_text = s.accumulated_text := by
  simp only [finalizeRecognition]
  repeat' split
  all_goals rfl

lemma finalizeRecognition_buf (s : Session σ) (t : String) :
    (finalizeRecognition s t).1.audio_buffer = s.audio_buffer := by
  simp only [finalizeRecognition]
  repeat' split
  all_goals rfl

lemma substrIn_empty (c : String) (h : substrIn c "" = true) : c = "" := by
  cases c with
  | mk data =>
    cases data with
    | nil => rfl
    | cons a l =>
      have hd : ("" : String).data = [] := rfl
      simp [substrIn, hd, List.isPrefixOf] at h

/-- A trivial engine / parameter instance used by concrete computations:
the decoder never returns phrases, never fails, and the signal chain is
inert. -/
def exampleParams : Params Unit where
  forward := fun _ st => Except.ok ([], st)
  finalize := fun st => Except.ok ([], st)
  rms := fun _ => 0
  rms_nonneg := fun _ => le_refl 0
  resample := fun _ => []
  amplification_factor := 1
  language := "ru"

/-! ## C4: the VAD tracker -/

/-- C4: under the live-processing guard, after `_process_chunk` the
quiet-run counter has been incremented exactly when the frame is quiet
(updated peak positive and the frame RMS below peak times the silence
ratio) and reset to 0 otherwise; the tracker is triggered exactly when the
updated counter has reached `VAD_PATIENCE_CHUNKS = 6` (so it fires on the
6th consecutive quiet frame and never before); on a fresh stream
(peak energy 0, i.e. the very first frame) the frame is never counted as
quiet, whatever its loudness; and once triggered, `_process_chunk` is a
strict no-op, so the trigger fires at most once. -/
theorem c4_vad (P : Params σ) (s : Session σ) (chunk : List Nat)
    (hcr : s.command_recognized = false) (hvt : s.vad_triggered = false) :
    ((processChunk P s chunk).1.vad_quiet_chunks =
      (if decide (0 < max s.vad_peak_energy (P.rms (samplesFloat chunk)))
          && decide (P.rms (samplesFloat chunk)
              < max s.vad_peak_energy (P.rms (samplesFloat chunk)) * VAD_SILENCE_THRESHOLD)
       then s.vad_quiet_chunks + 1 else 0))
    ∧ ((processChunk P s chunk).1.vad_triggered
        = decide (VAD_PATIENCE_CHUNKS ≤ (processChunk P s chunk).1.vad_quiet_chunks))
    ∧ (s.vad_peak_energy = 0 → (processChunk P s chunk).1.vad_quiet_chunks = 0)
    ∧ (∀ s2 : Session σ, s2.vad_triggered = true → processChunk P s2 chunk = (s2, [], none)) := by
  have h1 : (processChunk P s chunk).1.vad_quiet_chunks =
      (if decide (0 < max s.vad_peak_energy (P.rms (samplesFloat chunk)))
          && decide (P.rms (samplesFloat chunk)
              < max s.vad_peak_energy (P.rms (samplesFloat chunk)) * VAD_SILENCE_THRESHOLD)
       then s.vad_quiet_chunks + 1 else 0) := by
    simp only [processChunk, hcr, hvt, Bool.or_self, Bool.false_eq_true, if_false]
    repeat' split
    all_goals (try simp only [finalizeRecognition_vqc])
    all_goals rfl
  refine ⟨h1, ?_, ?_, ?_⟩
  · rw [h1]
    simp only [processChunk, hcr, hvt, Bool.or_self, Bool.false_eq_true, if_false]
    repeat' split
    all_goals (try simp only [finalizeRecognition_vt])
    all_goals
      first
        | rfl
        | (apply Eq.symm
           first
             | (apply decide_eq_true; first | assumption | omega)
             | (apply decide_eq_false; first | assumption | omega))
  · intro hpk
    rw [h1, hpk]
    rcases (P.rms_nonneg (samplesFloat chunk)).lt_or_eq with h | h
    · have hmax : max (0 : ℚ) (P.rms (samplesFloat chunk)) = P.rms (samplesFloat chunk) :=
        max_eq_right (le_of_lt h)
      rw [hmax]
      have hlt : ¬ (P.rms (samplesFloat chunk)
          < P.rms (samplesFloat chunk) * VAD_SILENCE_THRESHOLD) := by
        have hT : VAD_SILENCE_THRESHOLD < (1 : ℚ) := by norm_num [VAD_SILENCE_THRESHOLD]
        have h2 := mul_lt_mul_of_pos_left hT h
        rw [mul_one] at h2
        linarith
      simp [hlt]
    · rw [← h]
      norm_num
  · intro s2 h2
    simp [processChunk, h2]

/-- Witness for `c4_vad`: a concrete first frame on a fresh session is not
counted as quiet, and a triggered session ignores frames. -/
theorem c4_vad_witness :
    (processChunk exampleParams (mkSession Unit [] 5) []).1.vad_quiet_chunks = 0
    ∧ processChunk exampleParams
        { mkSession Unit [] 5 with vad_triggered := true } []
        = ({ mkSession Unit [] 5 with vad_triggered := true }, [], none) :=
  ⟨(c4_vad exampleParams (mkSession Unit [] 5) [] rfl rfl).2.2.1 rfl,
   (c4_vad exampleParams (mkSession Unit [] 5) [] rfl rfl).2.2.2 _ rfl⟩

/-! ## C5: the command matcher -/

lemma checkForCommand_eq_none (v : List String) (t : String) :
    checkForCommand v t = none ↔ ∀ c ∈ v, substrIn c t = false := by
  induction v with
  | nil => simp [checkForCommand]
  | cons a rest ih =>
    simp only [checkForCommand]
    by_cases hsub : substrIn a t
    · simp [hsub]
    · simp [hsub, ih, Bool.not_eq_true _ |>.mp hsub]

lemma checkForCommand_eq_some (v : List String) (t : String) (c : String) :
    checkForCommand v t = some c ↔
      ∃ p q, v = p ++ c :: q ∧ substrIn c t = true ∧ ∀ d ∈ p, substrIn d t = false := by
  induction v with
  | nil => simp [checkForCommand]
  | cons a rest ih =>
    simp only [checkForCommand]
    by_cases hsub : substrIn a t
    · simp only [hsub, if_true]
      constructor
      · rintro h
        injection h with h
        subst h
        exact ⟨[], rest, rfl, hsub, by simp⟩
      · rintro ⟨p, q, hv, hc, hall⟩
        cases p with
        | nil => simp at hv; rw [hv.1]
        | cons x p2 =>
          simp at hv
          obtain ⟨hx, _⟩ := hv
          have := hall x (by simp)
          rw [hx] at hsub
          simp [this] at hsub
    · rw [if_neg (by simp [hsub])]
      rw [ih]
      constructor
      · rintro ⟨p, q, hv, hc, hall⟩
        refine ⟨a :: p, q, by simp [hv], hc, ?_⟩
        intro d hd
        rcases List.mem_cons.mp hd with h | h
        · subst h; exact Bool.not_eq_true _ |>.mp hsub
        · exact hall d h
      · rintro ⟨p, q, hv, hc, hall⟩
        cases p with
        | nil =>
          simp at hv
          rw [hv.1] at hsub
          simp [hc] at hsub
        | cons x p2 =>
          simp at hv
          refine ⟨p2, q, hv.2, hc, ?_⟩
          intro d hd
          exact hall d (by simp [hd])

/-- C5: for every vocabulary (in the order given to the matcher, i.e. the
descending-length order of `sorted_commands`) and every text, the matcher
returns the first entry occurring as a substring of the text (no
word-boundary requirement) and `none` when no entry occurs; with
vocabulary `{"stop", "stop recording"}` sorted longest-first and the text
"please stop recording now", the match is "stop recording". -/
theorem c5_matcher_first_substring (v : List String) (t : String) :
    (checkForCommand v t = none ↔ ∀ c ∈ v, substrIn c t = false)
    ∧ (∀ c, checkForCommand v t = some c ↔
        ∃ p q, v = p ++ c :: q ∧ substrIn c t = true ∧ ∀ d ∈ p, substrIn d t = false)
    ∧ sortCommands ["stop", "stop recording"] = ["stop recording", "stop"]
    ∧ checkForCommand ["stop recording", "stop"] "please stop recording now"
        = some "stop recording" :=
  ⟨checkForCommand_eq_none v t, fun c => checkForCommand_eq_some v t c, by decide, by decide⟩

/-- Witness for `c5_matcher_first_substring`: the matcher applied on a
concrete vocabulary and text. -/
theorem c5_matcher_first_substring_witness :
    checkForCommand ["stop recording", "stop"] "please stop recording now"
      = some "stop recording" :=
  (c5_matcher_first_substring ["stop recording", "stop"] "please stop recording now").2.2.2

/-! ## C2: finalization with empty recognized text -/

lemma chunkLoop_short (P : Params σ) (s : Session σ) (buf : List Nat)
    (h : buf.length < REQUIRED_BYTES) : chunkLoop P s buf = ⟨s, buf, [], [], none⟩ := by
  unfold chunkLoop
  rw [dif_neg (by omega)]

/-- C2 (amended): the terminal-emission routine `_finalize_recognition`
emits the `Transcript` + `TranscriptStop` pair and sets the terminal flag
exactly when the stripped final text is non-empty; with empty final text
it emits nothing and leaves the flag unset, so a stream whose audio
produces no recognized text ends with no terminal events at all (the
whole stop path reduces to marking `vad_triggered`). -/
theorem c2_empty_finalize_no_emit (P : Params σ) (s : Session σ) (st2 : Option σ)
    (hcr : s.command_recognized = false) :
    (∀ t, pyStrip t = "" → finalizeRecognition s t = (s, []))
    ∧ (∀ t, pyStrip t ≠ "" → finalizeRecognition s t =
        ({ s with command_recognized := true }, [Ev.transcript (pyStrip t), Ev.transcriptStop]))
    ∧ (s.audio_buffer = [] → s.accumulated_text = "" →
        P.finalize s.state = Except.ok ([], st2) →
        handleAudioStop P s = ({ s with vad_triggered := true }, [])) := by
  refine ⟨fun t ht => finalizeRecognition_empty s t hcr ht,
          fun t ht => finalizeRecognition_emit s t hcr ht, ?_⟩
  intro hbuf hacc hfin
  have hps : pyStrip "" = "" := by decide
  have hpl : pyLower "" = "" := by decide
  simp only [handleAudioStop, hcr, Bool.false_eq_true, if_false]
  simp only [hbuf, hacc, hfin, List.isEmpty_nil, if_true, hcr, hpl]
  split
  · rfl
  · split
    · split
      · rename_i cmd heq
        have hc : cmd = "" := substrIn_empty cmd (by
          obtain ⟨p, q, hv, hsub, hall⟩ := (checkForCommand_eq_some _ _ cmd).mp heq
          exact hsub)
        subst hc
        simp [finalizeRecognition, hcr, hps, hacc, hbuf]
      · simp [finalizeRecognition, hcr, hps, hacc, hbuf]
    · simp [finalizeRecognition, hcr, hps, hacc, hbuf]

/-- Witness for `c2_empty_finalize_no_emit`: a concrete silent stop. -/
theorem c2_empty_finalize_no_emit_witness :
    handleAudioStop exampleParams (mkSession Unit [] 5)
      = ({ mkSession Unit [] 5 with vad_triggered := true }, []) :=
  (c2_empty_finalize_no_emit exampleParams (mkSession Unit [] 5) none rfl).2.2 rfl rfl rfl

/-- Counterexample to C2 as stated: a stream of silence-only audio
(one 4-byte chunk, all zero, then the client stop) emits no `Transcript`
at all — in particular no `Transcript` with empty text — and does not set
the terminal flag. -/
theorem c2_counterexample :
    (runStream exampleParams (initSession Unit [] 5)
        [Op.audioChunk [0, 0, 0, 0], Op.audioStop]).2 = []
    ∧ (runStream exampleParams (initSession Unit [] 5)
        [Op.audioChunk [0, 0, 0, 0], Op.audioStop]).1.command_recognized = false := by
  have hps : pyStrip "" = "" := by decide
  have hpl : pyLower "" = "" := by decide
  have hcl : chunkLoop exampleParams (initSession Unit [] 5)
      ((initSession Unit [] 5).audio_buffer ++ [0, 0, 0, 0])
      = ⟨initSession Unit [] 5, (initSession Unit [] 5).audio_buffer ++ [0, 0, 0, 0],
          [], [], none⟩ :=
    chunkLoop_short _ _ _ (by norm_num [initSession, mkSession, REQUIRED_BYTES, REQUIRED_SAMPLES])
  have e1 : step exampleParams (initSession Unit [] 5) (Op.audioChunk [0, 0, 0, 0])
      = ({ initSession Unit [] 5 with audio_buffer := [0, 0, 0, 0] }, []) := by
    simp only [step, handleAudioChunk, hcl]
    simp [initSession, mkSession]
  have e2 : step exampleParams ({ initSession Unit [] 5 with audio_buffer := [0, 0, 0, 0] })
      Op.audioStop
      = ({ initSession Unit [] 5 with vad_triggered := true }, []) := by
    simp only [step]
    simp [handleAudioStop, processChunkFinal, exampleParams, finalizeRecognition,
      checkForCommand, initSession, mkSession, hps, hpl]
  rw [show ([Op.audioChunk [0, 0, 0, 0], Op.audioStop] : List Op)
      = [Op.audioChunk [0, 0, 0, 0]] ++ [Op.audioStop] from rfl]
  simp [runStream, e1, e2]
  rfl

end ToneAsr

namespace ToneAsr

lemma countEv_nil (f : Ev → Nat) : countEv f [] = 0 := rfl

lemma countEv_single (f : Ev → Nat) (e : Ev) : countEv f [e] = f e := by
  simp [countEv]

lemma cnt_finalizeRecognition (f : Ev → Nat) (hf : CounterOK f) (s : Session σ) (t : String) :
    flagNat s + countEv f (finalizeRecognition s t).2 = flagNat (finalizeRecognition s t).1 := by
  obtain ⟨h1, h2, h3, h4⟩ := hf
  by_cases hcr : s.command_recognized
  · simp [finalizeRecognition_done s t hcr, countEv]
  · simp only [Bool.not_eq_true] at hcr
    by_cases ht : pyStrip t = ""
    · simp [finalizeRecognition_empty s t hcr ht, countEv]
    · have h5 := h4 (pyStrip t)
      simp [finalizeRecognition_emit s t hcr ht, countEv, flagNat, hcr]
      omega

lemma cnt_finalizeRecognition0 (f : Ev → Nat) (hf : CounterOK f) (s : Session σ) (t : String)
    (hcr : s.command_recognized = false) :
    countEv f (finalizeRecognition s t).2 = flagNat (finalizeRecognition s t).1 := by
  have h := cnt_finalizeRecognition f hf s t
  rw [show flagNat s = 0 from by simp [flagNat, hcr]] at h
  omega

set_option maxHeartbeats 1000000 in
lemma cnt_processChunk (f : Ev → Nat) (hf : CounterOK f) (P : Params σ) (s : Session σ)
    (c : List Nat) :
    flagNat s + countEv f (processChunk P s c).2.1 = flagNat (processChunk P s c).1 := by
  obtain ⟨h1, h2, h3, h4⟩ := hf
  simp only [processChunk]
  split
  · simp [countEv]
  · rename_i hguard
    obtain ⟨hcr, hvt⟩ : s.command_recognized = false ∧ s.vad_triggered = false := by
      constructor <;> cases hb : s.command_recognized <;> cases hb2 : s.vad_triggered <;>
        simp [hb, hb2] at hguard ⊢
    rw [show flagNat s = 0 from by simp [flagNat, hcr], Nat.zero_add]
    repeat' split
    all_goals dsimp only
    all_goals (try simp only [countEv_append, countEv_single, countEv_nil, h2, Nat.zero_add,
      Nat.add_zero])
    all_goals (first
      | (refine cnt_finalizeRecognition0 f ⟨h1, h2, h3, h4⟩ _ _ ?_
         first
           | exact hcr
           | rfl)
      | simp [flagNat, hcr])

lemma processChunkFinal_cnt (f : Ev → Nat) (hf : CounterOK f) (P : Params σ)
    (s : Session σ) (c : List Nat) : countEv f (processChunkFinal P s c).2.1 = 0 := by
  obtain ⟨h1, h2, h3, h4⟩ := hf
  simp only [processChunkFinal]
  repeat' split
  all_goals simp [countEv, h2]

lemma processChunkFinal_cr (P : Params σ) (s : Session σ) (c : List Nat) :
    (processChunkFinal P s c).1.command_recognized = s.command_recognized := by
  simp only [processChunkFinal]
  repeat' split
  all_goals rfl

lemma cnt_chunkLoop (f : Ev → Nat) (hf : CounterOK f) (P : Params σ) (s : Session σ)
    (buf : List Nat) :
    flagNat s + countEv f (chunkLoop P s buf).evs = flagNat (chunkLoop P s buf).st := by
  generalize hn : buf.length = n
  induction n using Nat.strong_induction_on generalizing s buf with
  | _ n ih =>
    subst hn
    unfold chunkLoop
    split
    · split
      · simp [countEv]
      · rename_i hlen hguard
        dsimp only
        split
        · exact cnt_processChunk f hf P s _
        · rename_i heq
          dsimp only
          rw [countEv_append, ← Nat.add_assoc, cnt_processChunk f hf P s _]
          exact ih (buf.drop REQUIRED_BYTES).length
            (by
              have h9 : 0 < REQUIRED_BYTES := by norm_num [REQUIRED_BYTES, REQUIRED_SAMPLES]
              simp only [List.length_drop]
              omega) _ _ rfl
    · simp [countEv]

lemma cnt_handleAudioStop (f : Ev → Nat) (hf : CounterOK f) (P : Params σ) (s : Session σ) :
    flagNat s + countEv f (handleAudioStop P s).2 = flagNat (handleAudioStop P s).1 := by
  obtain ⟨h1, h2, h3, h4⟩ := hf
  by_cases hcr : s.command_recognized
  · simp [handleAudioStop, hcr, countEv]
  · simp only [Bool.not_eq_true] at hcr
    rw [show flagNat s = 0 from by simp [flagNat, hcr], Nat.zero_add]
    simp only [handleAudioStop, hcr, Bool.false_eq_true, if_false]
    repeat' split
    all_goals dsimp only
    all_goals (try simp only [countEv_append, countEv_single, countEv_nil, h2, h3,
      Nat.zero_add, Nat.add_zero])
    all_goals (try rw [processChunkFinal_cnt f ⟨h1, h2, h3, h4⟩])
    all_goals (try simp only [Nat.zero_add, Nat.add_zero])
    all_goals (first
      | (refine cnt_finalizeRecognition0 f ⟨h1, h2, h3, h4⟩ _ _ ?_
         first
           | exact hcr
           | rfl
           | (rw [processChunkFinal_cr]; try exact hcr))
      | (rename_i hc2
         rw [processChunkFinal_cr] at hc2
         simp [hcr] at hc2)
      | simp [flagNat, hcr, processChunkFinal_cr])

lemma cnt_handleAudioChunk (f : Ev → Nat) (hf : CounterOK f) (P : Params σ) (s : Session σ)
    (b : List Nat) :
    flagNat s + countEv f (handleAudioChunk P s b).2.1 = flagNat (handleAudioChunk P s b).1 := by
  obtain ⟨h1, h2, h3, h4⟩ := hf
  simp only [handleAudioChunk]
  split
  · simp [countEv]
  · have hc := cnt_chunkLoop f ⟨h1, h2, h3, h4⟩ P s (s.audio_buffer ++ b)
    generalize hR : chunkLoop P s (s.audio_buffer ++ b) = R at hc ⊢
    obtain ⟨Rst, Rrem, Rframes, Revs, Rerr⟩ := R
    dsimp only at hc ⊢
    have hflag : flagNat ({ Rst with audio_buffer := Rrem } : Session σ) = flagNat Rst := rfl
    have hstop := cnt_handleAudioStop f ⟨h1, h2, h3, h4⟩ P
      ({ Rst with audio_buffer := Rrem } : Session σ)
    cases Rerr with
    | none =>
      dsimp only
      split
      · rw [countEv_append, ← Nat.add_assoc, hc, ← hflag]
        exact hstop
      · exact hc.trans hflag.symm
    | some msg =>
      dsimp only
      split
      · rw [countEv_append, countEv_append, countEv_single, h3, Nat.add_zero,
          ← Nat.add_assoc, hc, ← hflag]
        exact hstop
      · rw [countEv_append, countEv_single, h3, Nat.add_zero, hc]
        exact hflag.symm

lemma step_noop (P : Params σ) (s : Session σ) (op : Op) (hcr : s.command_recognized = true) :
    step P s op = (s, []) := by
  cases op with
  | audioChunk b => simp [step, handleAudioChunk, hcr]
  | audioStop => simp [step, handleAudioStop, hcr]

lemma cnt_step (f : Ev → Nat) (hf : CounterOK f) (P : Params σ) (s : Session σ) (op : Op) :
    flagNat s + countEv f (step P s op).2 = flagNat (step P s op).1 := by
  cases op with
  | audioChunk b =>
    simp only [step]
    exact cnt_handleAudioChunk f hf P s b
  | audioStop =>
    simp only [step]
    split
    · exact cnt_handleAudioStop f hf P s
    · simp [countEv]

lemma cnt_runStream (f : Ev → Nat) (hf : CounterOK f) (P : Params σ) (s : Session σ)
    (ops : List Op) :
    flagNat s + countEv f (runStream P s ops).2 = flagNat (runStream P s ops).1 := by
  induction ops generalizing s with
  | nil => simp [runStream, countEv]
  | cons op ops ih =>
    simp only [runStream]
    rw [countEv_append, ← Nat.add_assoc, cnt_step f hf P s op]
    exact ih _

/-- C1 (amended): over any sequence of in-stream events, the number of
terminal `Transcript` events written equals the number of `TranscriptStop`
events and equals the change of the terminal flag, so at most one
`Transcript` + `TranscriptStop` pair is ever emitted per stream (exactly
one when and only when the terminal flag becomes set, which by
`c2_empty_finalize_no_emit` requires a non-empty final text); and once the
terminal flag is set, every in-stream operation is a strict no-op. -/
theorem c1_at_most_one_finalize (P : Params σ) (s : Session σ) (ops : List Op) :
    (flagNat s + countEv transcriptCount (runStream P s ops).2
      = flagNat (runStream P s ops).1)
    ∧ (flagNat s + countEv transcriptStopCount (runStream P s ops).2
      = flagNat (runStream P s ops).1)
    ∧ (s.command_recognized = false →
        countEv transcriptCount (runStream P s ops).2 ≤ 1
        ∧ countEv transcriptStopCount (runStream P s ops).2 ≤ 1)
    ∧ (s.command_recognized = true → ∀ op, step P s op = (s, [])) := by
  have hT := cnt_runStream transcriptCount counterOK_transcript P s ops
  have hS := cnt_runStream transcriptStopCount counterOK_transcriptStop P s ops
  refine ⟨hT, hS, ?_, fun hcr op => step_noop P s op hcr⟩
  intro hcr
  have h0 : flagNat s = 0 := by simp [flagNat, hcr]
  have h1 : flagNat (runStream P s ops).1 ≤ 1 := by
    unfold flagNat
    split <;> omega
  omega

/-- Counterexample to C1 as stated: a stream consisting of a single
explicit `AudioStop` (an allowed interleaving) emits zero `Transcript`
and zero `TranscriptStop` events, not exactly one of each. -/
theorem c1_counterexample :
    countEv transcriptCount
      (runStream exampleParams (initSession Unit [] 5) [Op.audioStop]).2 = 0
    ∧ countEv transcriptStopCount
      (runStream exampleParams (initSession Unit [] 5) [Op.audioStop]).2 = 0 := by
  have hps : pyStrip "" = "" := by decide
  have hpl : pyLower "" = "" := by decide
  have e2 : step exampleParams (initSession Unit [] 5) Op.audioStop
      = ({ initSession Unit [] 5 with vad_triggered := true }, []) := by
    simp only [step]
    simp [handleAudioStop, exampleParams, finalizeRecognition, checkForCommand,
      initSession, mkSession, hps, hpl]
  simp [runStream, e2, countEv]

/-- Witness for `c1_at_most_one_finalize`. -/
theorem c1_at_most_one_finalize_witness :
    (countEv transcriptCount (runStream exampleParams (initSession Unit [] 5) []).2 ≤ 1
      ∧ countEv transcriptStopCount (runStream exampleParams (initSession Unit [] 5) []).2 ≤ 1)
    ∧ step exampleParams ({ mkSession Unit [] 5 with command_recognized := true })
        Op.audioStop
        = ({ mkSession Unit [] 5 with command_recognized := true }, []) :=
  ⟨(c1_at_most_one_finalize exampleParams (initSession Unit [] 5) []).2.2.1 rfl,
   (c1_at_most_one_finalize exampleParams
      ({ mkSession Unit [] 5 with command_recognized := true }) []).2.2.2 rfl Op.audioStop⟩

/-! ## C9: stream start resets to a pristine session -/

/-- C9: `_handle_audio_start` resets every mutable field (decoder state,
accumulated text, audio buffer, VAD peak / quiet-run / triggered flags,
terminal and check flags) while keeping the immutable vocabulary,
threshold and engine handle: the session after a stream start is exactly
the pristine session with the same configuration, and it emits
`TranscriptStart` with the configured language; consequently no leftover
audio bytes or text from a prior stream can reach the next stream
(feeding the reset session behaves exactly like feeding a fresh one). -/
theorem c9_stream_start_resets (P : Params σ) (s : Session σ) :
    handleAudioStart P s
      = (mkSession σ s.sorted_commands s.command_max_words, [Ev.transcriptStart P.language])
    ∧ (handleAudioStart P s).1.sorted_commands = s.sorted_commands
    ∧ (handleAudioStart P s).1.command_max_words = s.command_max_words
    ∧ (handleAudioStart P s).1.audio_buffer = []
    ∧ (handleAudioStart P s).1.accumulated_text = ""
    ∧ (∀ b, handleAudioChunk P (handleAudioStart P s).1 b
        = handleAudioChunk P (mkSession σ s.sorted_commands s.command_max_words) b) := by
  refine ⟨rfl, rfl, rfl, rfl, rfl, fun b => rfl⟩

/-! ## C6: command-check gating -/

lemma processChunk_cp_mono (P : Params σ) (s : Session σ) (c : List Nat)
    (h : s.check_performed = true) : (processChunk P s c).1.check_performed = true := by
  simp only [processChunk]
  repeat' split
  all_goals dsimp only
  all_goals (try simp only [finalizeRecognition_cp])
  all_goals (first | rfl | exact h | simp [h])

lemma processChunkFinal_cp (P : Params σ) (s : Session σ) (c : List Nat) :
    (processChunkFinal P s c).1.check_performed = s.check_performed := by
  simp only [processChunkFinal]
  repeat' split
  all_goals rfl

lemma chunkLoop_cp_mono (P : Params σ) :
    ∀ (n : Nat) (s : Session σ) (buf : List Nat), buf.length = n → s.check_performed = true →
      (chunkLoop P s buf).st.check_performed = true := by
  intro n
  induction n using Nat.strong_induction_on with
  | _ n ih =>
    intro s buf hn h
    subst hn
    unfold chunkLoop
    split
    · split
      · exact h
      · dsimp only
        split
        · exact processChunk_cp_mono P s _ h
        · exact ih (buf.drop REQUIRED_BYTES).length
            (by
              have h9 : 0 < REQUIRED_BYTES := by norm_num [REQUIRED_BYTES, REQUIRED_SAMPLES]
              rename_i hlen _ _
              simp only [List.length_drop]
              omega) _ _ rfl (processChunk_cp_mono P s _ h)
    · exact h

lemma handleAudioStop_cp_mono (P : Params σ) (s : Session σ)
    (h : s.check_performed = true) : (handleAudioStop P s).1.check_performed = true := by
  simp only [handleAudioStop]
  repeat' split
  all_goals dsimp only
  all_goals (try simp only [finalizeRecognition_cp, processChunkFinal_cp])
  all_goals (first | rfl | exact h | simp [h, processChunkFinal_cp])

lemma handleAudioChunk_cp_mono (P : Params σ) (s : Session σ) (b : List Nat)
    (h : s.check_performed = true) : (handleAudioChunk P s b).1.check_performed = true := by
  simp only [handleAudioChunk]
  split
  · exact h
  · have hc := chunkLoop_cp_mono P (s.audio_buffer ++ b).length s (s.audio_buffer ++ b) rfl h
    generalize hR : chunkLoop P s (s.audio_buffer ++ b) = R at hc ⊢
    obtain ⟨Rst, Rrem, Rframes, Revs, Rerr⟩ := R
    dsimp only at hc ⊢
    cases Rerr with
    | none =>
      dsimp only
      split
      · exact handleAudioStop_cp_mono P _ hc
      · exact hc
    | some msg =>
      dsimp only
      split
      · exact handleAudioStop_cp_mono P _ hc
      · exact hc

lemma step_cp_mono (P : Params σ) (s : Session σ) (op : Op)
    (h : s.check_performed = true) : (step P s op).1.check_performed = true := by
  cases op with
  | audioChunk b =>
    simp only [step]
    exact handleAudioChunk_cp_mono P s b h
  | audioStop =>
    simp only [step]
    split
    · exact handleAudioStop_cp_mono P s h
    · exact h

/-- An engine returning one fixed phrase on every frame, with an inert
signal chain; used for concrete computations. -/
def constParams (ph : String) : Params Unit where
  forward := fun _ st => Except.ok ([⟨ph⟩], st)
  finalize := fun st => Except.ok ([], st)
  rms := fun _ => 0
  rms_nonneg := fun _ => le_refl 0
  resample := fun _ => []
  amplification_factor := 1
  language := "ru"

set_option maxHeartbeats 2000000 in
/-- C6: during live frame processing (no stop decided, VAD not triggering
on this frame, decode succeeding), the check-performed flag after
`_process_chunk` is exactly "it already was set, or the vocabulary is
non-empty, the threshold is positive and the word count of the updated
accumulated text has reached the threshold" — so the check fires the
first time the word count reaches the threshold and only under those
conditions; the flag is monotone under every in-stream operation, making
the check run at most once per stream; and with threshold 5, a 4-word
accumulated text never fires while a 5-word one fires. -/
theorem c6_command_check_gating (P : Params σ) (s : Session σ) (c : List Nat)
    (ps : List Phrase) (st : Option σ)
    (hcr : s.command_recognized = false) (hvt : s.vad_triggered = false)
    (hq : (if decide (0 < max s.vad_peak_energy (P.rms (samplesFloat c)))
          && decide (P.rms (samplesFloat c)
              < max s.vad_peak_energy (P.rms (samplesFloat c)) * VAD_SILENCE_THRESHOLD)
       then s.vad_quiet_chunks + 1 else 0) < VAD_PATIENCE_CHUNKS)
    (hfw : P.forward (transformAudio P c) s.state = Except.ok (ps, st)) :
    ((processChunk P s c).1.check_performed = (s.check_performed
        || (!s.sorted_commands.isEmpty && decide (0 < s.command_max_words)
            && decide (s.command_max_words
                ≤ (pyWordCount (processChunk P s c).1.accumulated_text : Int)))))
    ∧ (∀ op, s.check_performed = true → (step P s op).1.check_performed = true)
    ∧ (processChunk (constParams "a b c d")
        (mkSession Unit ["cancel"] 5) []).1.check_performed = false
    ∧ (processChunk (constParams "a b c d e")
        (mkSession Unit ["cancel"] 5) []).1.check_performed = true := by
  refine ⟨?_, fun op h => step_cp_mono P s op h, by decide, by decide⟩
  simp only [processChunk, hcr, hvt, Bool.or_self, Bool.false_eq_true, if_false]
  rw [if_neg (by omega)]
  try dsimp only
  rw [show ({ s with
      vad_peak_energy := max s.vad_peak_energy (P.rms (samplesFloat c)),
      vad_quiet_chunks := (if decide (0 < max s.vad_peak_energy (P.rms (samplesFloat c)))
          && decide (P.rms (samplesFloat c)
              < max s.vad_peak_energy (P.rms (samplesFloat c)) * VAD_SILENCE_THRESHOLD)
       then s.vad_quiet_chunks + 1 else 0) } : Session σ).state = s.state from rfl, hfw]
  repeat' split
  all_goals dsimp only
  all_goals (try simp only [finalizeRecognition_cp, finalizeRecognition_acc])
  all_goals (try simp_all)
  all_goals (repeat' split)
  all_goals (try simp_all [finalizeRecognition_cp, finalizeRecognition_acc])
  all_goals (intros; by_cases hcp : s.check_performed = true <;> simp_all <;> omega)

/-- Witness for `c6_command_check_gating`. -/
theorem c6_command_check_gating_witness :
    (processChunk (constParams "a b c d")
      (mkSession Unit ["cancel"] 5) []).1.check_performed = false :=
  (c6_command_check_gating (constParams "a b c d") (mkSession Unit ["cancel"] 5) []
    [⟨"a b c d"⟩] none rfl rfl (by decide) rfl).2.2.1

/-! ## C10: incremental events carry non-empty text; accumulated text stays stripped -/

/-- No leading or trailing whitespace. -/
def Stripped (x : String) : Prop :=
  (∀ c, x.data.head? = some c → isSpaceChar c = false)
  ∧ (∀ c, x.data.getLast? = some c → isSpaceChar c = false)

lemma dropWhile_head_false (p : Char → Bool) (l : List Char) (c : Char)
    (h : (l.dropWhile p).head? = some c) : p c = false := by
  induction l with
  | nil => simp [List.dropWhile] at h
  | cons a l ih =>
    by_cases hp : p a
    · rw [List.dropWhile_cons_of_pos hp] at h
      exact ih h
    · rw [List.dropWhile_cons_of_neg hp] at h
      simp at h
      rw [← h]
      exact Bool.not_eq_true _ |>.mp hp

lemma getLast_dropWhile (p : Char → Bool) (l : List Char)
    (h : l.dropWhile p ≠ []) : (l.dropWhile p).getLast? = l.getLast? := by
  induction l with
  | nil => simp [List.dropWhile] at h
  | cons a l ih =>
    by_cases hp : p a
    · rw [List.dropWhile_cons_of_pos hp] at h ⊢
      rw [ih h]
      have hl : l ≠ [] := by
        intro he
        subst he
        simp [List.dropWhile] at h
      cases l with
      | nil => exact absurd rfl hl
      | cons b m => simp [List.getLast?_cons_cons]
    · rw [List.dropWhile_cons_of_neg hp]

lemma stripped_pyStrip (x : String) : Stripped (pyStrip x) := by
  constructor
  · intro c hc
    simp only [pyStrip] at hc
    rw [List.head?_reverse] at hc
    by_cases hnil : ((x.data.dropWhile isSpaceChar).reverse.dropWhile isSpaceChar) = []
    · rw [hnil] at hc
      simp at hc
    · rw [getLast_dropWhile _ _ hnil, List.getLast?_reverse] at hc
      exact dropWhile_head_false _ _ _ hc
  · intro c hc
    simp only [pyStrip] at hc
    rw [List.getLast?_reverse] at hc
    exact dropWhile_head_false _ _ _ hc

lemma stripped_empty : Stripped "" := by
  constructor <;> intro c hc <;> simp [show ("" : String).data = [] from rfl] at hc

lemma stripped_appendText (acc t : String) : Stripped (appendText acc t) :=
  stripped_pyStrip _

/-- Counter for incremental `TranscriptChunk` events carrying empty text. -/
def badChunkCount : Ev → Nat
  | Ev.transcriptChunk t => if t = "" then 1 else 0
  | _ => 0

lemma countEv_eq_zero (f : Ev → Nat) (evs : List Ev) (h : countEv f evs = 0) :
    ∀ e ∈ evs, f e = 0 := by
  induction evs with
  | nil => simp
  | cons e evs ih =>
    simp only [countEv, List.map_cons, List.sum_cons, Nat.add_eq_zero] at h
    intro x hx
    rcases List.mem_cons.mp hx with hx | hx
    · rw [hx]; exact h.1
    · exact ih h.2 x hx

lemma bad_finalizeRecognition (s : Session σ) (t : String) :
    countEv badChunkCount (finalizeRecognition s t).2 = 0 := by
  simp only [finalizeRecognition]
  repeat' split
  all_goals simp [countEv, badChunkCount]

lemma bad_processChunk (P : Params σ) (s : Session σ) (c : List Nat) :
    countEv badChunkCount (processChunk P s c).2.1 = 0 := by
  simp only [processChunk]
  repeat' split
  all_goals dsimp only
  all_goals (try simp only [countEv_append, countEv_single, countEv_nil,
    bad_finalizeRecognition, Nat.zero_add, Nat.add_zero])
  all_goals (first
    | rfl
    | (simp only [badChunkCount]
       rw [if_neg (by assumption)]))

lemma bad_processChunkFinal (P : Params σ) (s : Session σ) (c : List Nat) :
    countEv badChunkCount (processChunkFinal P s c).2.1 = 0 := by
  simp only [processChunkFinal]
  repeat' split
  all_goals dsimp only
  all_goals (try simp only [countEv_append, countEv_single, countEv_nil,
    Nat.zero_add, Nat.add_zero])
  all_goals (first
    | rfl
    | (simp only [badChunkCount]
       rw [if_neg (by assumption)]))

lemma bad_chunkLoop (P : Params σ) :
    ∀ (n : Nat) (s : Session σ) (buf : List Nat), buf.length = n →
      countEv badChunkCount (chunkLoop P s buf).evs = 0 := by
  intro n
  induction n using Nat.strong_induction_on with
  | _ n ih =>
    intro s buf hn
    subst hn
    unfold chunkLoop
    split
    · split
      · simp [countEv]
      · dsimp only
        split
        · exact bad_processChunk P s _
        · rw [countEv_append, bad_processChunk P s _, Nat.zero_add]
          exact ih (buf.drop REQUIRED_BYTES).length
            (by
              have h9 : 0 < REQUIRED_BYTES := by norm_num [REQUIRED_BYTES, REQUIRED_SAMPLES]
              rename_i hlen _ _
              simp only [List.length_drop]
              omega) _ _ rfl
    · simp [countEv]

lemma bad_handleAudioStop (P : Params σ) (s : Session σ) :
    countEv badChunkCount (handleAudioStop P s).2 = 0 := by
  simp only [handleAudioStop]
  repeat' split
  all_goals dsimp only
  all_goals (try simp only [countEv_append, countEv_single, countEv_nil,
    bad_finalizeRecognition, bad_processChunkFinal, Nat.zero_add, Nat.add_zero])
  all_goals (first
    | rfl
    | (simp only [badChunkCount]
       rw [if_neg (by assumption)])
    | simp [countEv, badChunkCount, bad_processChunkFinal])

lemma bad_handleAudioChunk (P : Params σ) (s : Session σ) (b : List Nat) :
    countEv badChunkCount (handleAudioChunk P s b).2.1 = 0 := by
  simp only [handleAudioChunk]
  split
  · simp [countEv]
  · have hc := bad_chunkLoop P (s.audio_buffer ++ b).length s (s.audio_buffer ++ b) rfl
    generalize hR : chunkLoop P s (s.audio_buffer ++ b) = R at hc ⊢
    obtain ⟨Rst, Rrem, Rframes, Revs, Rerr⟩ := R
    dsimp only at hc ⊢
    cases Rerr with
    | none =>
      dsimp only
      split
      · rw [countEv_append, hc, Nat.zero_add]
        exact bad_handleAudioStop P _
      · exact hc
    | some msg =>
      dsimp only
      split
      · simp only [countEv_append, countEv_single, hc, Nat.zero_add]
        rw [show badChunkCount (Ev.error msg) = 0 from rfl, Nat.zero_add]
        exact bad_handleAudioStop P _
      · simp [countEv_append, countEv_single, hc, badChunkCount]

lemma bad_step (P : Params σ) (s : Session σ) (op : Op) :
    countEv badChunkCount (step P s op).2 = 0 := by
  cases op with
  | audioChunk b =>
    simp only [step]
    exact bad_handleAudioChunk P s b
  | audioStop =>
    simp only [step]
    split
    · exact bad_handleAudioStop P s
    · simp [countEv]

lemma processChunk_acc_stripped (P : Params σ) (s : Session σ) (c : List Nat)
    (hs : Stripped s.accumulated_text) :
    Stripped (processChunk P s c).1.accumulated_text := by
  simp only [processChunk]
  repeat' split
  all_goals dsimp only
  all_goals (try simp only [finalizeRecognition_acc])
  all_goals (first | exact hs | exact stripped_appendText _ _)

lemma processChunkFinal_acc_stripped (P : Params σ) (s : Session σ) (c : List Nat)
    (hs : Stripped s.accumulated_text) :
    Stripped (processChunkFinal P s c).1.accumulated_text := by
  simp only [processChunkFinal]
  repeat' split
  all_goals dsimp only
  all_goals (first | exact hs | exact stripped_appendText _ _)

lemma chunkLoop_acc_stripped (P : Params σ) :
    ∀ (n : Nat) (s : Session σ) (buf : List Nat), buf.length = n →
      Stripped s.accumulated_text → Stripped (chunkLoop P s buf).st.accumulated_text := by
  intro n
  induction n using Nat.strong_induction_on with
  | _ n ih =>
    intro s buf hn hs
    subst hn
    unfold chunkLoop
    split
    · split
      · exact hs
      · dsimp only
        split
        · exact processChunk_acc_stripped P s _ hs
        · exact ih (buf.drop REQUIRED_BYTES).length
            (by
              have h9 : 0 < REQUIRED_BYTES := by norm_num [REQUIRED_BYTES, REQUIRED_SAMPLES]
              rename_i hlen _ _
              simp only [List.length_drop]
              omega) _ _ rfl (processChunk_acc_stripped P s _ hs)
    · exact hs

lemma handleAudioStop_acc_stripped (P : Params σ) (s : Session σ)
    (hs : Stripped s.accumulated_text) :
    Stripped (handleAudioStop P s).1.accumulated_text := by
  simp only [handleAudioStop]
  repeat' split
  all_goals dsimp only
  all_goals (try simp only [finalizeRecognition_acc])
  all_goals (first
    | exact hs
    | exact stripped_appendText _ _
    | exact processChunkFinal_acc_stripped P _ _ hs
    | (exact processChunkFinal_acc_stripped P
        ({ s with vad_triggered := true }) _ hs))

lemma handleAudioChunk_acc_stripped (P : Params σ) (s : Session σ) (b : List Nat)
    (hs : Stripped s.accumulated_text) :
    Stripped (handleAudioChunk P s b).1.accumulated_text := by
  simp only [handleAudioChunk]
  split
  · exact hs
  · have hc := chunkLoop_acc_stripped P (s.audio_buffer ++ b).length s (s.audio_buffer ++ b)
      rfl hs
    generalize hR : chunkLoop P s (s.audio_buffer ++ b) = R at hc ⊢
    obtain ⟨Rst, Rrem, Rframes, Revs, Rerr⟩ := R
    dsimp only at hc ⊢
    cases Rerr with
    | none =>
      dsimp only
      split
      · exact handleAudioStop_acc_stripped P _ hc
      · exact hc
    | some msg =>
      dsimp only
      split
      · exact handleAudioStop_acc_stripped P _ hc
      · exact hc

lemma step_acc_stripped (P : Params σ) (s : Session σ) (op : Op)
    (hs : Stripped s.accumulated_text) :
    Stripped (step P s op).1.accumulated_text := by
  cases op with
  | audioChunk b =>
    simp only [step]
    exact handleAudioChunk_acc_stripped P s b hs
  | audioStop =>
    simp only [step]
    split
    · exact handleAudioStop_acc_stripped P s hs
    · exact hs

/-- Predicate selecting incremental `TranscriptChunk` events. -/
def isChunkEv : Ev → Bool
  | Ev.transcriptChunk _ => true
  | _ => false

lemma finalizeRecognition_filter_chunk (s : Session σ) (x : String) :
    (finalizeRecognition s x).2.filter isChunkEv = [] := by
  by_cases hcr : s.command_recognized
  · simp [finalizeRecognition_done s x hcr]
  · simp only [Bool.not_eq_true] at hcr
    by_cases hx : pyStrip x = ""
    · simp [finalizeRecognition_empty s x hcr hx]
    · simp [finalizeRecognition_emit s x hcr hx, isChunkEv]

lemma finalizeRecognition_chunk_false (s : Session σ) (x : String) :
    ∀ e ∈ (finalizeRecognition s x).2, isChunkEv e = false := by
  by_cases hcr : s.command_recognized
  · simp [finalizeRecognition_done s x hcr]
  · simp only [Bool.not_eq_true] at hcr
    by_cases hx : pyStrip x = ""
    · simp [finalizeRecognition_empty s x hcr hx]
    · simp [finalizeRecognition_emit s x hcr hx, isChunkEv]

set_option maxHeartbeats 2000000 in
/-- C10: every incremental `TranscriptChunk` event any in-stream operation
emits carries non-empty text; the accumulated text has no leading or
trailing whitespace after every operation (it is built only by the
stripping `appendText`); and during live processing the chunk event
emitted for an engine result `ps` carries exactly the non-empty phrase
texts of `ps` joined by single spaces (`joinTexts`, i.e.
`String.intercalate " "` over the non-empty texts), with no event at all
when that join is empty or `ps` is empty. -/
theorem c10_nonempty_chunks_stripped_acc (P : Params σ) (s : Session σ) :
    (∀ op t, Ev.transcriptChunk t ∈ (step P s op).2 → t ≠ "")
    ∧ (∀ op, Stripped s.accumulated_text → Stripped ((step P s op).1.accumulated_text))
    ∧ (∀ (c : List Nat) (ps : List Phrase) (st : Option σ),
        s.command_recognized = false → s.vad_triggered = false →
        (if decide (0 < max s.vad_peak_energy (P.rms (samplesFloat c)))
            && decide (P.rms (samplesFloat c)
                < max s.vad_peak_energy (P.rms (samplesFloat c)) * VAD_SILENCE_THRESHOLD)
         then s.vad_quiet_chunks + 1 else 0) < VAD_PATIENCE_CHUNKS →
        P.forward (transformAudio P c) s.state = Except.ok (ps, st) →
        (processChunk P s c).2.1.filter isChunkEv
          = if ps.isEmpty || (joinTexts ps == "") then []
            else [Ev.transcriptChunk (joinTexts ps)]) := by
  refine ⟨?_, fun op hs => step_acc_stripped P s op hs, ?_⟩
  · intro op t h
    have hb := countEv_eq_zero badChunkCount _ (bad_step P s op) _ h
    simp only [badChunkCount] at hb
    intro ht
    rw [ht] at hb
    simp at hb
  · intro c ps st hcr hvt hq hfw
    simp only [processChunk, hcr, hvt, Bool.or_self, Bool.false_eq_true, if_false]
    rw [if_neg (by omega)]
    try dsimp only
    rw [show ({ s with
        vad_peak_energy := max s.vad_peak_energy (P.rms (samplesFloat c)),
        vad_quiet_chunks := (if decide (0 < max s.vad_peak_energy (P.rms (samplesFloat c)))
            && decide (P.rms (samplesFloat c)
                < max s.vad_peak_energy (P.rms (samplesFloat c)) * VAD_SILENCE_THRESHOLD)
         then s.vad_quiet_chunks + 1 else 0) } : Session σ).state = s.state from rfl, hfw]
    repeat' split
    all_goals dsimp only
    all_goals (try simp only [List.filter_append, finalizeRecognition_filter_chunk,
      List.append_nil, List.nil_append])
    all_goals (try simp_all [isChunkEv, List.filter])
    all_goals (repeat' split)
    all_goals (try simp_all [isChunkEv, List.filter, finalizeRecognition_chunk_false])
    all_goals (intro a ha; exact finalizeRecognition_chunk_false _ _ a ha)

/-- Witness for `c10_nonempty_chunks_stripped_acc`. -/
theorem c10_nonempty_chunks_stripped_acc_witness :
    Stripped ((step exampleParams (mkSession Unit [] 5) Op.audioStop).1.accumulated_text)
    ∧ (processChunk (constParams "hello")
        (mkSession Unit [] 5) []).2.1.filter isChunkEv
        = [Ev.transcriptChunk "hello"] :=
  ⟨(c10_nonempty_chunks_stripped_acc exampleParams (mkSession Unit [] 5)).2.1
      Op.audioStop stripped_empty,
   ((c10_nonempty_chunks_stripped_acc (constParams "hello") (mkSession Unit [] 5)).2.2
      [] [⟨"hello"⟩] none rfl rfl (by decide) rfl).trans (by decide)⟩

/-! ## C7: frame segmentation is invariant under fragmentation -/

/-- An engine whose `forward` never raises. -/
def TotalForward (P : Params σ) : Prop :=
  ∀ x st, ∃ ps st2, P.forward x st = Except.ok (ps, st2)

lemma processChunk_err_none (P : Params σ) (htot : TotalForward P) (s : Session σ)
    (c : List Nat) : (processChunk P s c).2.2 = none := by
  simp only [processChunk]
  repeat' split
  all_goals (first
    | rfl
    | (rename_i heq
       obtain ⟨ps, st2, h⟩ := htot (transformAudio P c) s.state
       try dsimp only at heq
       rw [h] at heq
       cases heq))

lemma chunkLoop_stopped (P : Params σ) (s : Session σ) (buf : List Nat)
    (hstop : (s.command_recognized || s.vad_triggered) = true) :
    chunkLoop P s buf = ⟨s, buf, [], [], none⟩ := by
  by_cases h : REQUIRED_BYTES ≤ buf.length
  · unfold chunkLoop
    rw [dif_pos h, if_pos hstop]
  · unfold chunkLoop
    rw [dif_neg h]

lemma chunkLoop_step (P : Params σ) (htot : TotalForward P) (s : Session σ) (buf : List Nat)
    (hlen : REQUIRED_BYTES ≤ buf.length)
    (hstop : ¬(s.command_recognized || s.vad_triggered) = true) :
    chunkLoop P s buf
      = ⟨(chunkLoop P (processChunk P s (buf.take REQUIRED_BYTES)).1
            (buf.drop REQUIRED_BYTES)).st,
         (chunkLoop P (processChunk P s (buf.take REQUIRED_BYTES)).1
            (buf.drop REQUIRED_BYTES)).rem,
         buf.take REQUIRED_BYTES
           :: (chunkLoop P (processChunk P s (buf.take REQUIRED_BYTES)).1
                (buf.drop REQUIRED_BYTES)).frames,
         (processChunk P s (buf.take REQUIRED_BYTES)).2.1
           ++ (chunkLoop P (processChunk P s (buf.take REQUIRED_BYTES)).1
                (buf.drop REQUIRED_BYTES)).evs,
         (chunkLoop P (processChunk P s (buf.take REQUIRED_BYTES)).1
            (buf.drop REQUIRED_BYTES)).err⟩ := by
  conv_lhs => rw [chunkLoop]
  rw [dif_pos hlen, if_neg hstop]
  dsimp only
  rw [processChunk_err_none P htot s (buf.take REQUIRED_BYTES)]

lemma chunkLoop_err_none (P : Params σ) (htot : TotalForward P) :
    ∀ (n : Nat) (s : Session σ) (buf : List Nat), buf.length = n →
      (chunkLoop P s buf).err = none := by
  intro n
  induction n using Nat.strong_induction_on with
  | _ n ih =>
    intro s buf hn
    subst hn
    by_cases hstop : (s.command_recognized || s.vad_triggered) = true
    · rw [chunkLoop_stopped P s buf hstop]
    · by_cases hlen : REQUIRED_BYTES ≤ buf.length
      · rw [chunkLoop_step P htot s buf hlen hstop]
        exact ih (buf.drop REQUIRED_BYTES).length
          (by
            have h9 : 0 < REQUIRED_BYTES := by norm_num [REQUIRED_BYTES, REQUIRED_SAMPLES]
            simp only [List.length_drop]
            omega) _ _ rfl
      · unfold chunkLoop
        rw [dif_neg hlen]

lemma chunkLoop_append (P : Params σ) (htot : TotalForward P) :
    ∀ (n : Nat) (s : Session σ) (buf ext : List Nat), buf.length = n →
      chunkLoop P s (buf ++ ext)
        = ⟨(chunkLoop P (chunkLoop P s buf).st ((chunkLoop P s buf).rem ++ ext)).st,
           (chunkLoop P (chunkLoop P s buf).st ((chunkLoop P s buf).rem ++ ext)).rem,
           (chunkLoop P s buf).frames
             ++ (chunkLoop P (chunkLoop P s buf).st ((chunkLoop P s buf).rem ++ ext)).frames,
           (chunkLoop P s buf).evs
             ++ (chunkLoop P (chunkLoop P s buf).st ((chunkLoop P s buf).rem ++ ext)).evs,
           (chunkLoop P (chunkLoop P s buf).st ((chunkLoop P s buf).rem ++ ext)).err⟩ := by
  intro n
  induction n using Nat.strong_induction_on with
  | _ n ih =>
    intro s buf ext hn
    subst hn
    by_cases hstop : (s.command_recognized || s.vad_triggered) = true
    · rw [chunkLoop_stopped P s buf hstop]
      dsimp only
      simp [chunkLoop_stopped P s (buf ++ ext) hstop]
    · by_cases hlen : REQUIRED_BYTES ≤ buf.length
      · have hlen2 : REQUIRED_BYTES ≤ (buf ++ ext).length := by
          rw [List.length_append]
          omega
        have htk : (buf ++ ext).take REQUIRED_BYTES = buf.take REQUIRED_BYTES :=
          List.take_append_of_le_length hlen
        have hdr : (buf ++ ext).drop REQUIRED_BYTES = buf.drop REQUIRED_BYTES ++ ext :=
          List.drop_append_of_le_length hlen
        rw [chunkLoop_step P htot s (buf ++ ext) hlen2 hstop, htk, hdr,
          chunkLoop_step P htot s buf hlen hstop]
        dsimp only
        rw [ih (buf.drop REQUIRED_BYTES).length
          (by
            have h9 : 0 < REQUIRED_BYTES := by norm_num [REQUIRED_BYTES, REQUIRED_SAMPLES]
            simp only [List.length_drop]
            omega) _ _ ext rfl]
        simp [List.cons_append, List.append_assoc]
      · have hb : chunkLoop P s buf = ⟨s, buf, [], [], none⟩ := by
          unfold chunkLoop
          rw [dif_neg hlen]
        rw [hb]
        dsimp only
        simp only [List.nil_append]

/-- Forget the audio buffer of a session (the draining loop threads the
buffer separately, and no per-frame processing reads it). -/
def clearBuf (s : Session σ) : Session σ :=
  Session.mk s.sorted_commands s.command_max_words s.state s.accumulated_text
    s.command_recognized s.check_performed [] s.vad_peak_energy s.vad_quiet_chunks
    s.vad_triggered

lemma finalizeRecognition_clear (s : Session σ) (t : String) :
    clearBuf (finalizeRecognition s t).1 = (finalizeRecognition (clearBuf s) t).1 := by
  rw [show (clearBuf s : Session σ)
      = Session.mk s.sorted_commands s.command_max_words s.state s.accumulated_text
          s.command_recognized s.check_performed ([] : List Nat) s.vad_peak_energy
          s.vad_quiet_chunks s.vad_triggered from rfl]
  simp only [finalizeRecognition]
  try dsimp only
  repeat' split
  all_goals rfl

set_option maxHeartbeats 1000000 in
lemma processChunk_clear (P : Params σ) (s : Session σ) (ch : List Nat) :
    clearBuf (processChunk P s ch).1 = (processChunk P (clearBuf s) ch).1 := by
  rw [show (clearBuf s : Session σ)
      = Session.mk s.sorted_commands s.command_max_words s.state s.accumulated_text
          s.command_recognized s.check_performed ([] : List Nat) s.vad_peak_energy
          s.vad_quiet_chunks s.vad_triggered from rfl]
  unfold processChunk
  dsimp only
  generalize (if (decide (0 < max s.vad_peak_energy (P.rms (samplesFloat ch))) &&
      decide (P.rms (samplesFloat ch)
        < max s.vad_peak_energy (P.rms (samplesFloat ch)) * VAD_SILENCE_THRESHOLD)) = true
      then s.vad_quiet_chunks + 1 else 0) = q
  repeat' split
  all_goals (try dsimp only)
  all_goals (first
    | rfl
    | contradiction
    | skip)
  all_goals (try (rw [finalizeRecognition_clear]))
  all_goals (first
    | rfl
    | (dsimp only at *
       try simp_all
       try dsimp only [clearBuf]
       try rfl))

lemma processChunkFinal_vt (P : Params σ) (s : Session σ) (c : List Nat) :
    (processChunkFinal P s c).1.vad_triggered = s.vad_triggered := by
  simp only [processChunkFinal]
  repeat' split
  all_goals rfl

lemma handleAudioStop_vt (P : Params σ) (s : Session σ) (h : s.vad_triggered = true) :
    (handleAudioStop P s).1.vad_triggered = true := by
  by_cases hcr : s.command_recognized
  · simp only [handleAudioStop, hcr, if_true]
    exact h
  · simp only [Bool.not_eq_true] at hcr
    simp only [handleAudioStop, hcr, Bool.false_eq_true, if_false]
    repeat' split
    all_goals dsimp only
    all_goals (try simp only [finalizeRecognition_vt, processChunkFinal_vt])
    all_goals rfl

lemma chunkLoop_frames_clear (P : Params σ) (htot : TotalForward P) :
    ∀ (n : Nat) (s : Session σ) (bf : List Nat), bf.length = n →
      (chunkLoop P (clearBuf s) bf).frames = (chunkLoop P s bf).frames := by
  intro n
  induction n using Nat.strong_induction_on with
  | _ n ih =>
    intro s bf hn
    subst hn
    by_cases hstop : (s.command_recognized || s.vad_triggered) = true
    · rw [chunkLoop_stopped P s bf hstop, chunkLoop_stopped P (clearBuf s) bf hstop]
    · by_cases hlen : REQUIRED_BYTES ≤ bf.length
      · rw [chunkLoop_step P htot s bf hlen hstop,
          chunkLoop_step P htot (clearBuf s) bf hlen hstop]
        dsimp only
        rw [show (processChunk P (clearBuf s) (bf.take REQUIRED_BYTES)).1
            = clearBuf (processChunk P s (bf.take REQUIRED_BYTES)).1 from
          (processChunk_clear P s (bf.take REQUIRED_BYTES)).symm]
        rw [ih (bf.drop REQUIRED_BYTES).length
          (by
            have h9 : 0 < REQUIRED_BYTES := by norm_num [REQUIRED_BYTES, REQUIRED_SAMPLES]
            simp only [List.length_drop]
            omega) _ _ rfl]
      · unfold chunkLoop
        rw [dif_neg hlen, dif_neg hlen]

lemma chunkLoop_rem (P : Params σ) (htot : TotalForward P) :
    ∀ (n : Nat) (s : Session σ) (bf : List Nat), bf.length = n →
      (chunkLoop P s bf).rem.length < REQUIRED_BYTES
      ∨ ((chunkLoop P s bf).st.command_recognized
          || (chunkLoop P s bf).st.vad_triggered) = true := by
  intro n
  induction n using Nat.strong_induction_on with
  | _ n ih =>
    intro s bf hn
    subst hn
    by_cases hstop : (s.command_recognized || s.vad_triggered) = true
    · rw [chunkLoop_stopped P s bf hstop]
      exact Or.inr hstop
    · by_cases hlen : REQUIRED_BYTES ≤ bf.length
      · rw [chunkLoop_step P htot s bf hlen hstop]
        exact ih (bf.drop REQUIRED_BYTES).length
          (by
            have h9 : 0 < REQUIRED_BYTES := by norm_num [REQUIRED_BYTES, REQUIRED_SAMPLES]
            simp only [List.length_drop]
            omega) _ _ rfl
      · unfold chunkLoop
        rw [dif_neg hlen]
        exact Or.inl (by dsimp only; omega)

lemma handleAudioChunk_frames (P : Params σ) (s : Session σ) (b : List Nat)
    (hstop : ¬(s.command_recognized || s.vad_triggered) = true) :
    (handleAudioChunk P s b).2.2 = (chunkLoop P s (s.audio_buffer ++ b)).frames := by
  simp only [handleAudioChunk]
  rw [if_neg hstop]
  repeat' split
  all_goals rfl

lemma handleAudioChunk_fst_vt (P : Params σ) (s : Session σ) (b : List Nat)
    (hstop : ¬(s.command_recognized || s.vad_triggered) = true)
    (hvt : (chunkLoop P s (s.audio_buffer ++ b)).st.vad_triggered = true) :
    (handleAudioChunk P s b).1
      = (handleAudioStop P
          { (chunkLoop P s (s.audio_buffer ++ b)).st with
            audio_buffer := (chunkLoop P s (s.audio_buffer ++ b)).rem }).1 := by
  simp only [handleAudioChunk]
  rw [if_neg hstop]
  rw [if_pos hvt]

lemma handleAudioChunk_fst_nvt (P : Params σ) (s : Session σ) (b : List Nat)
    (hstop : ¬(s.command_recognized || s.vad_triggered) = true)
    (hvt : (chunkLoop P s (s.audio_buffer ++ b)).st.vad_triggered = false) :
    (handleAudioChunk P s b).1
      = { (chunkLoop P s (s.audio_buffer ++ b)).st with
          audio_buffer := (chunkLoop P s (s.audio_buffer ++ b)).rem } := by
  simp only [handleAudioChunk]
  rw [if_neg hstop]
  rw [if_neg (by rw [hvt]; exact Bool.false_ne_true)]

lemma feedMany_stopped (P : Params σ) :
    ∀ (cs : List (List Nat)) (s : Session σ),
      (s.command_recognized || s.vad_triggered) = true →
      (feedMany P s cs).2.2 = [] := by
  intro cs
  induction cs with
  | nil => intro s h; rfl
  | cons c cs ih =>
    intro s h
    simp only [feedMany, handleAudioChunk, if_pos h]
    exact ih s h

lemma clearBuf_setBuf (x : Session σ) (r : List Nat) :
    clearBuf { x with audio_buffer := r } = clearBuf x := rfl

lemma chunkLoop_frames_setBuf (P : Params σ) (htot : TotalForward P)
    (x : Session σ) (r bf : List Nat) :
    (chunkLoop P { x with audio_buffer := r } bf).frames
      = (chunkLoop P x bf).frames := by
  rw [← chunkLoop_frames_clear P htot bf.length { x with audio_buffer := r } bf rfl,
    clearBuf_setBuf, chunkLoop_frames_clear P htot bf.length x bf rfl]

lemma feedMany_frames (P : Params σ) (htot : TotalForward P) :
    ∀ (cs : List (List Nat)) (s : Session σ),
      s.audio_buffer.length < REQUIRED_BYTES
        ∨ (s.command_recognized || s.vad_triggered) = true →
      (feedMany P s cs).2.2 = (chunkLoop P s (s.audio_buffer ++ cs.flatten)).frames := by
  intro cs
  induction cs with
  | nil =>
    intro s hinv
    by_cases hstop : (s.command_recognized || s.vad_triggered) = true
    · rw [chunkLoop_stopped P s _ hstop]
      rfl
    · have hlen : s.audio_buffer.length < REQUIRED_BYTES := by
        rcases hinv with h | h
        · exact h
        · exact absurd h hstop
      unfold chunkLoop
      rw [dif_neg (by simp only [List.flatten_nil, List.append_nil]; omega)]
      rfl
  | cons c cs ih =>
    intro s hinv
    by_cases hstop : (s.command_recognized || s.vad_triggered) = true
    · rw [chunkLoop_stopped P s _ hstop]
      exact feedMany_stopped P (c :: cs) s hstop
    · have hfr := handleAudioChunk_frames P s c hstop
      have hjoin : s.audio_buffer ++ (c :: cs).flatten
          = (s.audio_buffer ++ c) ++ cs.flatten := by
        simp [List.append_assoc]
      rw [hjoin, chunkLoop_append P htot (s.audio_buffer ++ c).length s
        (s.audio_buffer ++ c) cs.flatten rfl]
      dsimp only
      simp only [feedMany]
      rw [hfr]
      by_cases hvt : (chunkLoop P s (s.audio_buffer ++ c)).st.vad_triggered = true
      · -- the VAD fired inside the loop: the scheduled stop makes the session terminal
        have hstop2 : ((chunkLoop P s (s.audio_buffer ++ c)).st.command_recognized
            || (chunkLoop P s (s.audio_buffer ++ c)).st.vad_triggered) = true := by
          rw [hvt, Bool.or_true]
        rw [chunkLoop_stopped P _ _ hstop2, handleAudioChunk_fst_vt P s c hstop hvt]
        rw [feedMany_stopped P cs
          ((handleAudioStop P
            { (chunkLoop P s (s.audio_buffer ++ c)).st with
              audio_buffer := (chunkLoop P s (s.audio_buffer ++ c)).rem }).1)
          (by rw [handleAudioStop_vt P
              { (chunkLoop P s (s.audio_buffer ++ c)).st with
                audio_buffer := (chunkLoop P s (s.audio_buffer ++ c)).rem } hvt,
            Bool.or_true])]
        try simp
      · have hvt2 : (chunkLoop P s (s.audio_buffer ++ c)).st.vad_triggered = false := by
          simp only [Bool.not_eq_true] at hvt
          exact hvt
        rw [handleAudioChunk_fst_nvt P s c hstop hvt2]
        by_cases hcr : (chunkLoop P s (s.audio_buffer ++ c)).st.command_recognized = true
        · -- a command matched inside the loop: every later chunk is dropped
          have hstop2 : ((chunkLoop P s (s.audio_buffer ++ c)).st.command_recognized
              || (chunkLoop P s (s.audio_buffer ++ c)).st.vad_triggered) = true := by
            rw [hcr, Bool.true_or]
          rw [chunkLoop_stopped P _ _ hstop2]
          rw [feedMany_stopped P cs
            ({ (chunkLoop P s (s.audio_buffer ++ c)).st with
               audio_buffer := (chunkLoop P s (s.audio_buffer ++ c)).rem }) hstop2]
          try simp
        · -- still live: the remainder is shorter than a frame, recurse
          have hrem : (chunkLoop P s (s.audio_buffer ++ c)).rem.length
              < REQUIRED_BYTES := by
            rcases chunkLoop_rem P htot (s.audio_buffer ++ c).length s
              (s.audio_buffer ++ c) rfl with h | h
            · exact h
            · rcases Bool.or_eq_true_iff.mp h with h2 | h2
              · exact absurd h2 hcr
              · exact absurd h2 hvt
          rw [ih ({ (chunkLoop P s (s.audio_buffer ++ c)).st with
              audio_buffer := (chunkLoop P s (s.audio_buffer ++ c)).rem })
            (Or.inl hrem)]
          dsimp only
          congr 1
          rw [← chunkLoop_frames_clear P htot
            ((chunkLoop P s (s.audio_buffer ++ c)).rem ++ cs.flatten).length
            ({ (chunkLoop P s (s.audio_buffer ++ c)).st with
               audio_buffer := (chunkLoop P s (s.audio_buffer ++ c)).rem })
            ((chunkLoop P s (s.audio_buffer ++ c)).rem ++ cs.flatten) rfl]
          exact chunkLoop_frames_clear P htot
            ((chunkLoop P s (s.audio_buffer ++ c)).rem ++ cs.flatten).length
            (chunkLoop P s (s.audio_buffer ++ c)).st
            ((chunkLoop P s (s.audio_buffer ++ c)).rem ++ cs.flatten) rfl

/-- C7: the sequence of fixed-size 9600-byte frames handed to VAD and the
decoder depends only on the bytes received, not on the chunk boundaries:
for an engine whose `forward` does not raise, any two fragmentations of
the same byte stream fed to `_handle_audio_chunk` produce the identical
frame sequence (any partial remainder stays buffered). -/
theorem c7_fragmentation_invariance (P : Params σ) (htot : TotalForward P)
    (s : Session σ)
    (hinv : s.audio_buffer.length < REQUIRED_BYTES
      ∨ (s.command_recognized || s.vad_triggered) = true)
    (cs ds : List (List Nat)) (h : cs.flatten = ds.flatten) :
    (feedMany P s cs).2.2 = (feedMany P s ds).2.2 := by
  rw [feedMany_frames P htot cs s hinv, feedMany_frames P htot ds s hinv, h]

/-- Witness for `c7_fragmentation_invariance` at a concrete engine,
session and pair of fragmentations. -/
theorem c7_fragmentation_invariance_witness :
    TotalForward exampleParams
    ∧ ((mkSession Unit [] 5).audio_buffer.length < REQUIRED_BYTES
        ∨ ((mkSession Unit [] 5).command_recognized
            || (mkSession Unit [] 5).vad_triggered) = true)
    ∧ ([[0], [1]] : List (List Nat)).flatten = ([[0, 1]] : List (List Nat)).flatten
    ∧ (feedMany exampleParams (mkSession Unit [] 5) [[0], [1]]).2.2
        = (feedMany exampleParams (mkSession Unit [] 5) [[0, 1]]).2.2 :=
  ⟨fun x st => ⟨[], st, rfl⟩,
   Or.inl (by norm_num [mkSession, REQUIRED_BYTES, REQUIRED_SAMPLES]),
   rfl,
   c7_fragmentation_invariance exampleParams
     (fun x st => ⟨[], st, rfl⟩)
     (mkSession Unit [] 5)
     (Or.inl (by norm_num [mkSession, REQUIRED_BYTES, REQUIRED_SAMPLES]))
     [[0], [1]] [[0, 1]] rfl⟩

/-! ## C8: exception containment -/

set_option maxHeartbeats 1000000 in
lemma processChunk_cases (P : Params σ) (s : Session σ) (c : List Nat) :
    (processChunk P s c).2.2 = none
    ∨ ((processChunk P s c).1.accumulated_text = s.accumulated_text
       ∧ (processChunk P s c).1.command_recognized = s.command_recognized
       ∧ (processChunk P s c).1.check_performed = s.check_performed
       ∧ (processChunk P s c).1.audio_buffer = s.audio_buffer
       ∧ (processChunk P s c).1.state = s.state
       ∧ (processChunk P s c).1.vad_triggered = s.vad_triggered) := by
  simp only [processChunk]
  repeat' split
  all_goals (first
    | exact Or.inl rfl
    | exact Or.inr ⟨rfl, rfl, rfl, rfl, rfl, rfl⟩)

lemma chunkLoop_err_step (P : Params σ) (s : Session σ) (buf : List Nat) (msg : String)
    (hlen : REQUIRED_BYTES ≤ buf.length)
    (hstop : ¬(s.command_recognized || s.vad_triggered) = true)
    (herr : (processChunk P s (buf.take REQUIRED_BYTES)).2.2 = some msg) :
    chunkLoop P s buf
      = ⟨(processChunk P s (buf.take REQUIRED_BYTES)).1, buf.drop REQUIRED_BYTES,
         [buf.take REQUIRED_BYTES], (processChunk P s (buf.take REQUIRED_BYTES)).2.1,
         some msg⟩ := by
  conv_lhs => rw [chunkLoop]
  rw [dif_pos hlen, if_neg hstop]
  dsimp only
  rw [herr]

lemma chunkLoop_err_flags (P : Params σ) (msg : String) :
    ∀ (n : Nat) (s : Session σ) (buf : List Nat), buf.length = n →
      (chunkLoop P s buf).err = some msg →
      (chunkLoop P s buf).st.command_recognized = false
      ∧ (chunkLoop P s buf).st.vad_triggered = false := by
  intro n
  induction n using Nat.strong_induction_on with
  | _ n ih =>
    intro s buf hn herr
    subst hn
    by_cases hstop : (s.command_recognized || s.vad_triggered) = true
    · rw [chunkLoop_stopped P s buf hstop] at herr
      cases herr
    · by_cases hlen : REQUIRED_BYTES ≤ buf.length
      · obtain ⟨hcr, hvt⟩ : s.command_recognized = false ∧ s.vad_triggered = false := by
          constructor <;> cases hb : s.command_recognized <;> cases hb2 : s.vad_triggered <;>
            simp [hb, hb2] at hstop ⊢
        unfold chunkLoop at herr ⊢
        rw [dif_pos hlen, if_neg hstop] at herr ⊢
        dsimp only at herr ⊢
        cases hp : (processChunk P s (buf.take REQUIRED_BYTES)).2.2 with
        | none =>
          rw [hp] at herr
          dsimp only at herr ⊢
          exact ih (buf.drop REQUIRED_BYTES).length
            (by
              have h9 : 0 < REQUIRED_BYTES := by norm_num [REQUIRED_BYTES, REQUIRED_SAMPLES]
              simp only [List.length_drop]
              omega) _ _ rfl herr
        | some e =>
          rw [hp] at herr
          dsimp only at herr ⊢
          rcases processChunk_cases P s (buf.take REQUIRED_BYTES) with hnone | hfields
          · rw [hp] at hnone
            cases hnone
          · exact ⟨hfields.2.1.trans hcr, hfields.2.2.2.2.2.trans hvt⟩
      · unfold chunkLoop at herr
        rw [dif_neg hlen] at herr
        cases herr

lemma handleAudioChunk_err (P : Params σ) (s : Session σ) (b : List Nat) (msg : String)
    (hstop : ¬(s.command_recognized || s.vad_triggered) = true)
    (herr : (chunkLoop P s (s.audio_buffer ++ b)).err = some msg)
    (hvt : (chunkLoop P s (s.audio_buffer ++ b)).st.vad_triggered = false) :
    handleAudioChunk P s b
      = ({ (chunkLoop P s (s.audio_buffer ++ b)).st with
           audio_buffer := (chunkLoop P s (s.audio_buffer ++ b)).rem },
         (chunkLoop P s (s.audio_buffer ++ b)).evs ++ [Ev.error msg],
         (chunkLoop P s (s.audio_buffer ++ b)).frames) := by
  simp only [handleAudioChunk]
  rw [if_neg hstop, herr]
  rw [if_neg (by rw [hvt]; exact Bool.false_ne_true)]

lemma handleAudioStop_finalize_err (P : Params σ) (s : Session σ) (msg : String)
    (hcr : s.command_recognized = false) (hbuf : s.audio_buffer = [])
    (herr : P.finalize s.state = Except.error msg) :
    handleAudioStop P s = ({ s with vad_triggered := true }, [Ev.error msg]) := by
  simp only [handleAudioStop, hcr, Bool.false_eq_true, if_false]
  rw [if_pos (by rw [hbuf]; rfl)]
  dsimp only
  rw [if_neg Bool.false_ne_true]
  rw [herr]
  dsimp only
  rfl

/-- An engine whose `forward` and `finalize` always raise. -/
def failParams : Params Unit where
  forward := fun _ _ => Except.error "boom"
  finalize := fun _ => Except.error "boom"
  rms := fun _ => 0
  rms_nonneg := fun _ => le_refl 0
  resample := fun _ => []
  amplification_factor := 1
  language := "en"

/-- C8: an engine exception during chunk processing is caught and appended
as an `Error` event, the session stays live (terminal flag and VAD stop
flag unset) with the unconsumed bytes kept buffered; the failing frame
itself leaves text, flags, buffer and engine state untouched (only the
frame is dropped); an exception from the engine `finalize` is caught and
reported as an `Error` event but the terminal flag is NOT set. -/
theorem c8_exception_containment (P : Params σ) (s : Session σ) (b : List Nat)
    (msg : String)
    (hstop : ¬(s.command_recognized || s.vad_triggered) = true) :
    ((chunkLoop P s (s.audio_buffer ++ b)).err = some msg →
        (handleAudioChunk P s b).2.1
          = (chunkLoop P s (s.audio_buffer ++ b)).evs ++ [Ev.error msg]
        ∧ (handleAudioChunk P s b).1.command_recognized = false
        ∧ (handleAudioChunk P s b).1.vad_triggered = false
        ∧ (handleAudioChunk P s b).1.audio_buffer
            = (chunkLoop P s (s.audio_buffer ++ b)).rem)
    ∧ (∀ buf, REQUIRED_BYTES ≤ buf.length →
        (processChunk P s (buf.take REQUIRED_BYTES)).2.2 = some msg →
        chunkLoop P s buf
          = ⟨(processChunk P s (buf.take REQUIRED_BYTES)).1, buf.drop REQUIRED_BYTES,
             [buf.take REQUIRED_BYTES], (processChunk P s (buf.take REQUIRED_BYTES)).2.1,
             some msg⟩
        ∧ (processChunk P s (buf.take REQUIRED_BYTES)).1.accumulated_text
            = s.accumulated_text
        ∧ (processChunk P s (buf.take REQUIRED_BYTES)).1.command_recognized
            = s.command_recognized
        ∧ (processChunk P s (buf.take REQUIRED_BYTES)).1.check_performed
            = s.check_performed
        ∧ (processChunk P s (buf.take REQUIRED_BYTES)).1.state = s.state)
    ∧ (s.command_recognized = false → s.audio_buffer = [] →
        P.finalize s.state = Except.error msg →
        handleAudioStop P s = ({ s with vad_triggered := true }, [Ev.error msg])
        ∧ (handleAudioStop P s).1.command_recognized = false) := by
  refine ⟨?_, ?_, ?_⟩
  · intro herr
    have hflags := chunkLoop_err_flags P msg (s.audio_buffer ++ b).length s
      (s.audio_buffer ++ b) rfl herr
    rw [handleAudioChunk_err P s b msg hstop herr hflags.2]
    exact ⟨rfl, hflags.1, hflags.2, rfl⟩
  · intro buf hlen herr2
    refine ⟨chunkLoop_err_step P s buf msg hlen hstop herr2, ?_⟩
    rcases processChunk_cases P s (buf.take REQUIRED_BYTES) with hnone | hf
    · rw [herr2] at hnone
      cases hnone
    · exact ⟨hf.1, hf.2.1, hf.2.2.1, hf.2.2.2.2.1⟩
  · intro hcr hbuf herr3
    rw [handleAudioStop_finalize_err P s msg hcr hbuf herr3]
    exact ⟨rfl, hcr⟩

/-- Witness for `c8_exception_containment`: a concrete always-raising
engine on one full frame, and on an empty-buffer finalize. -/
theorem c8_exception_containment_witness :
    (¬((mkSession Unit [] 5).command_recognized
        || (mkSession Unit [] 5).vad_triggered) = true)
    ∧ (handleAudioChunk failParams (mkSession Unit [] 5)
        (List.replicate REQUIRED_BYTES 0)).2.1 = [Ev.error "boom"]
    ∧ (handleAudioChunk failParams (mkSession Unit [] 5)
        (List.replicate REQUIRED_BYTES 0)).1.command_recognized = false
    ∧ handleAudioStop failParams (mkSession Unit [] 5)
        = ({ mkSession Unit [] 5 with vad_triggered := true }, [Ev.error "boom"]) := by
  have T := c8_exception_containment failParams (mkSession Unit [] 5)
    (List.replicate REQUIRED_BYTES 0) "boom" (by decide)
  have h1 : REQUIRED_BYTES ≤ ((mkSession Unit [] 5).audio_buffer
      ++ List.replicate REQUIRED_BYTES 0).length := by
    simp [mkSession]
  have h2 : (processChunk failParams (mkSession Unit [] 5)
      (((mkSession Unit [] 5).audio_buffer ++ List.replicate REQUIRED_BYTES 0).take
        REQUIRED_BYTES)).2.2 = some "boom" := rfl
  have hstep := T.2.1 _ h1 h2
  have herr : (chunkLoop failParams (mkSession Unit [] 5)
      ((mkSession Unit [] 5).audio_buffer ++ List.replicate REQUIRED_BYTES 0)).err
      = some "boom" := by rw [hstep.1]
  have hmain := T.1 herr
  refine ⟨by decide, ?_, hmain.2.1, (T.2.2 rfl rfl rfl).1⟩
  rw [hmain.1]
  rw [show (chunkLoop failParams (mkSession Unit [] 5)
      ((mkSession Unit [] 5).audio_buffer ++ List.replicate REQUIRED_BYTES 0)).evs
      = [] from by
    rw [hstep.1]
    rfl]
  rfl

/-! ## C3: the three stop triggers and the order of the stop routine -/

/-- An engine whose per-frame decode yields a five-word command phrase and
whose finalize yields a trailing phrase. -/
def tailParams : Params Unit where
  forward := fun _ st => Except.ok ([⟨"cancel one two three four"⟩], st)
  finalize := fun st => Except.ok ([⟨"tail"⟩], st)
  rms := fun _ => 0
  rms_nonneg := fun _ => le_refl 0
  resample := fun _ => []
  amplification_factor := 1
  language := "en"

lemma tail_hp :
    processChunk tailParams (mkSession Unit ["cancel"] 5)
        (((mkSession Unit ["cancel"] 5).audio_buffer
          ++ List.replicate REQUIRED_BYTES 0).take REQUIRED_BYTES)
      = ({ mkSession Unit ["cancel"] 5 with
            accumulated_text := "cancel one two three four",
            check_performed := true, command_recognized := true },
         [Ev.transcriptChunk "cancel one two three four",
          Ev.transcript "cancel", Ev.transcriptStop], none) := rfl

lemma tail_htot : TotalForward tailParams :=
  fun _ st => ⟨[⟨"cancel one two three four"⟩], st, rfl⟩

lemma tail_hR :
    chunkLoop tailParams (mkSession Unit ["cancel"] 5)
        ((mkSession Unit ["cancel"] 5).audio_buffer ++ List.replicate REQUIRED_BYTES 0)
      = ⟨{ mkSession Unit ["cancel"] 5 with
            accumulated_text := "cancel one two three four",
            check_performed := true, command_recognized := true },
         [], [List.replicate REQUIRED_BYTES 0],
         [Ev.transcriptChunk "cancel one two three four",
          Ev.transcript "cancel", Ev.transcriptStop], none⟩ := by
  have hdrop : ((mkSession Unit ["cancel"] 5).audio_buffer
      ++ List.replicate REQUIRED_BYTES 0).drop REQUIRED_BYTES = [] := by
    simp [mkSession]
  have htake : ((mkSession Unit ["cancel"] 5).audio_buffer
      ++ List.replicate REQUIRED_BYTES 0).take REQUIRED_BYTES
      = List.replicate REQUIRED_BYTES 0 := by
    simp [mkSession]
  rw [chunkLoop_step tailParams tail_htot _ _
    (by simp [mkSession]) (by simp [mkSession]), tail_hp, hdrop, htake]
  rw [chunkLoop_short tailParams _ [] (by norm_num [REQUIRED_BYTES, REQUIRED_SAMPLES])]
  rfl

lemma tail_hac :
    handleAudioChunk tailParams (mkSession Unit ["cancel"] 5)
        (List.replicate REQUIRED_BYTES 0)
      = ({ mkSession Unit ["cancel"] 5 with
            accumulated_text := "cancel one two three four",
            check_performed := true, command_recognized := true },
         [Ev.transcriptChunk "cancel one two three four",
          Ev.transcript "cancel", Ev.transcriptStop],
         [List.replicate REQUIRED_BYTES 0]) := by
  simp only [handleAudioChunk]
  rw [if_neg (by simp [mkSession]), tail_hR]
  rfl

/-- Counterexample to C3 as stated: with an engine whose `finalize`
returns the trailing phrase "tail", an in-stream command match finalizes
the stream directly from `_process_chunk` without flushing the buffer or
calling the engine finalize: the emitted events contain no
`TranscriptChunk "tail"`, yet the terminal flag is set. -/
theorem c3_counterexample :
    (handleAudioChunk tailParams (mkSession Unit ["cancel"] 5)
        (List.replicate REQUIRED_BYTES 0)).2.1
      = [Ev.transcriptChunk "cancel one two three four",
         Ev.transcript "cancel", Ev.transcriptStop]
    ∧ Ev.transcriptChunk "tail"
        ∉ (handleAudioChunk tailParams (mkSession Unit ["cancel"] 5)
            (List.replicate REQUIRED_BYTES 0)).2.1
    ∧ (handleAudioChunk tailParams (mkSession Unit ["cancel"] 5)
        (List.replicate REQUIRED_BYTES 0)).1.command_recognized = true := by
  rw [tail_hac]
  refine ⟨rfl, by decide, rfl⟩

lemma handleAudioChunk_vt_full (P : Params σ) (s : Session σ) (b : List Nat)
    (hstop : ¬(s.command_recognized || s.vad_triggered) = true)
    (herr : (chunkLoop P s (s.audio_buffer ++ b)).err = none)
    (hvt : (chunkLoop P s (s.audio_buffer ++ b)).st.vad_triggered = true) :
    handleAudioChunk P s b
      = ((handleAudioStop P
            { (chunkLoop P s (s.audio_buffer ++ b)).st with
              audio_buffer := (chunkLoop P s (s.audio_buffer ++ b)).rem }).1,
         (chunkLoop P s (s.audio_buffer ++ b)).evs
           ++ (handleAudioStop P
            { (chunkLoop P s (s.audio_buffer ++ b)).st with
              audio_buffer := (chunkLoop P s (s.audio_buffer ++ b)).rem }).2,
         (chunkLoop P s (s.audio_buffer ++ b)).frames) := by
  simp only [handleAudioChunk]
  rw [if_neg hstop, herr]
  rw [if_pos hvt]

/-- C3 (amended): the explicit client stop and the internal VAD force-stop
both dispatch to the single stop routine `_handle_audio_stop`, which is a
no-op once the terminal flag is set and otherwise performs, in order: the
zero-padded flush of any buffered partial frame through the VAD-free
pipeline `_process_chunk_final`, the engine finalize with its trailing
phrases emitted as an incremental transcript event, the command check if
none has run, and the terminal emission of `_finalize_recognition`.  (The
third trigger, an in-stream command match, bypasses this routine: see the
counterexample.) -/
theorem c3_stop_triggers (P : Params σ) (s : Session σ)
    (sF : Session σ) (evF : List Ev) (phs : List Phrase) (st2 : Option σ)
    (cmd : String) :
    (¬s.vad_triggered = true → step P s Op.audioStop = handleAudioStop P s)
    ∧ (s.command_recognized = true → handleAudioStop P s = (s, []))
    ∧ (s.audio_buffer.length ≤ REQUIRED_BYTES →
        (padFrame s.audio_buffer).length = REQUIRED_BYTES)
    ∧ ((processChunkFinal P s (padFrame s.audio_buffer)).1.vad_peak_energy
          = s.vad_peak_energy
       ∧ (processChunkFinal P s (padFrame s.audio_buffer)).1.vad_quiet_chunks
          = s.vad_quiet_chunks
       ∧ (processChunkFinal P s (padFrame s.audio_buffer)).1.vad_triggered
          = s.vad_triggered)
    ∧ (∀ b, ¬(s.command_recognized || s.vad_triggered) = true →
        (chunkLoop P s (s.audio_buffer ++ b)).err = none →
        (chunkLoop P s (s.audio_buffer ++ b)).st.vad_triggered = true →
        (handleAudioChunk P s b).1
          = (handleAudioStop P
              { (chunkLoop P s (s.audio_buffer ++ b)).st with
                audio_buffer := (chunkLoop P s (s.audio_buffer ++ b)).rem }).1)
    ∧ (s.command_recognized = false →
       s.audio_buffer.isEmpty = false →
       processChunkFinal P { s with vad_triggered := true } (padFrame s.audio_buffer)
         = (sF, evF, none) →
       sF.command_recognized = false →
       P.finalize sF.state = Except.ok (phs, st2) →
       phs.isEmpty = false →
       joinTexts phs ≠ "" →
       sF.check_performed = false →
       checkForCommand sF.sorted_commands
           (pyLower (appendText sF.accumulated_text (joinTexts phs))) = some cmd →
       handleAudioStop P s
         = ((finalizeRecognition
              { sF with
                  audio_buffer := []
                  accumulated_text := appendText sF.accumulated_text (joinTexts phs) }
              cmd).1,
            evF ++ [Ev.transcriptChunk (joinTexts phs)]
              ++ (finalizeRecognition
                  { sF with
                      audio_buffer := []
                      accumulated_text := appendText sF.accumulated_text (joinTexts phs) }
                  cmd).2)) := by
  refine ⟨?_, ?_, ?_, ?_, ?_, ?_⟩
  · intro h
    have h2 : s.vad_triggered = false := by
      cases hb : s.vad_triggered
      · rfl
      · exact absurd hb h
    simp [step, h2]
  · intro h
    simp [handleAudioStop, h]
  · intro h
    simp only [padFrame, List.length_append, List.length_replicate]
    omega
  · refine ⟨?_, ?_, ?_⟩ <;>
      (simp only [processChunkFinal]
       repeat' split
       all_goals rfl)
  · intro b hstop herr hvt
    rw [handleAudioChunk_vt_full P s b hstop herr hvt]
  · intro hcr hbuf hF hcrF hfin hph htext hcp hmatch
    simp only [handleAudioStop]
    rw [if_neg (by rw [hcr]; exact Bool.false_ne_true)]
    rw [if_neg (by
      show ¬(({ s with vad_triggered := true } : Session σ).audio_buffer.isEmpty = true)
      rw [show ({ s with vad_triggered := true } : Session σ).audio_buffer
          = s.audio_buffer from rfl, hbuf]
      exact Bool.false_ne_true)]
    rw [hF]
    dsimp only
    rw [if_neg (by rw [hcrF]; exact Bool.false_ne_true)]
    rw [hfin]
    dsimp only
    rw [if_neg (show ¬(phs.isEmpty = true) from by
      rw [hph]
      exact Bool.false_ne_true)]
    rw [if_neg htext]
    dsimp only
    rw [if_pos (show (!sF.check_performed) = true from by rw [hcp]; rfl)]
    rw [hmatch]

set_option maxHeartbeats 2000000 in
/-- Witness for `c3_stop_triggers`: a concrete engine whose finalize
emits a trailing phrase, exercising the stop dispatch and the full
flush-finalize-check-emit order of `_handle_audio_stop`. -/
theorem c3_stop_triggers_witness :
    (¬(mkSession Unit ["tail"] 5).vad_triggered = true
      ∧ step tailParams (mkSession Unit ["tail"] 5) Op.audioStop
          = handleAudioStop tailParams (mkSession Unit ["tail"] 5))
    ∧ handleAudioStop tailParams
        { mkSession Unit ["tail"] 5 with audio_buffer := [0] }
      = ({ mkSession Unit ["tail"] 5 with
            audio_buffer := []
            vad_triggered := true
            accumulated_text := "cancel one two three four tail"
            command_recognized := true },
         [Ev.transcriptChunk "cancel one two three four",
          Ev.transcriptChunk "tail", Ev.transcript "tail", Ev.transcriptStop]) := by
  have T := c3_stop_triggers tailParams
    { mkSession Unit ["tail"] 5 with audio_buffer := [0] }
    { mkSession Unit ["tail"] 5 with
        audio_buffer := [0]
        vad_triggered := true
        accumulated_text := "cancel one two three four" }
    [Ev.transcriptChunk "cancel one two three four"]
    [⟨"tail"⟩] none "tail"
  have T2 := c3_stop_triggers tailParams (mkSession Unit ["tail"] 5)
    (mkSession Unit ["tail"] 5) [] [] none ""
  refine ⟨⟨by decide, T2.1 (by decide)⟩, ?_⟩
  have h := T.2.2.2.2.2 rfl rfl rfl rfl rfl rfl (by decide) rfl rfl
  exact h.trans (by decide)

end ToneAsr
